import Mathlib

/-! IoT-Swarm-Mesh, Device2 UI core: button classifier, list navigation and scroller

A shallow embedding of `One-to-One_ESP_Test/Device2/src/main.cpp`:
the button event classifier `btnEvent`, the Wi-Fi list motion handling, row text and
view of `wifiList`, the menu / sub-screen loops of `uiTask` and the `TextScroller`, with
the properties of the specification stated over them.

Conventions.
* `uint32_t` values are naturals below `2^32`; subtraction is taken modulo `2^32`.
* `int` values are integers (no `int` in the modelled code gets near the 32-bit range).
* The two environment reads of `btnEvent`, `readBtn(pin)` and `get_millis()`, are
  arguments of the embedded function; so is the time read by the scroller.
* A call that has no defined result (a modulo by zero, an out-of-range `substr`) returns
  `none`.
-/

namespace Device2

/-! ## Buttons -/

/-- The modulus of `uint32_t` arithmetic. -/
def U32 : Nat := 4294967296

/-- Subtraction of two `uint32_t` values, `a - b` modulo `2^32`. -/
def sub32 (a b : Nat) : Nat := (a + (U32 - b % U32)) % U32

/-- Source: `const uint32_t longPress = 800;` -/
def longPress : Nat := 800

/-- The globals `bool lastState[8]` and `uint32_t pressedAt[8]`. -/
structure Buttons where
  lastState : Fin 8 → Bool
  pressedAt : Fin 8 → Nat

/-- The zero-initialised globals at program start. -/
def Buttons.init : Buttons := ⟨fun _ => false, fun _ => 0⟩

/-- Source: `int idx = pin & 7;` as an index into the two arrays. -/
def btnIdx (pin : Nat) : Fin 8 :=
  ⟨pin &&& 7, Nat.lt_succ_of_le Nat.and_le_right⟩

/-- Source: `#define BTN_DOWN GPIO_NUM_5` -/
def BTN_DOWN : Nat := 5
/-- Source: `#define BTN_SELECT GPIO_NUM_6` -/
def BTN_SELECT : Nat := 6
/-- Source: `#define BTN_UP GPIO_NUM_7` -/
def BTN_UP : Nat := 7

/-- Source: `bool readBtn(gpio_num_t pin) { return gpio_get_level(pin) == 0; }`, as a
function of the level read from the pin. -/
def readBtn (level : Nat) : Bool := level == 0

/-- Source: `uint32_t get_millis() { return esp_timer_get_time() / 1000; }`, as a
function of the microsecond timer value. -/
def get_millis (us : Nat) : Nat := (us / 1000) % U32

/-- Source: `int btnEvent(gpio_num_t pin)`: `s` is the value of `readBtn(pin)` and `now`
the value of `get_millis()` in this call.
Returns the event code (0 none, 1 short, 2 long start, 3 released after long) and the
updated globals. -/
def btnEvent (pin : Nat) (s : Bool) (now : Nat) (st : Buttons) : Int × Buttons :=
  let idx := btnIdx pin
  if s && !st.lastState idx then
    (0, { lastState := Function.update st.lastState idx true,
          pressedAt := Function.update st.pressedAt idx now })
  else if !s && st.lastState idx then
    let st1 : Buttons := { st with lastState := Function.update st.lastState idx false }
    let t := sub32 now (st.pressedAt idx)
    if t ≥ longPress then (3, st1) else (1, st1)
  else if s && st.lastState idx then
    if sub32 now (st.pressedAt idx) ≥ longPress && st.pressedAt idx != 0xFFFFFFFF then
      (2, { st with pressedAt := Function.update st.pressedAt idx 0xFFFFFFFF })
    else (0, st)
  else (0, st)

/-- Successive calls `btnEvent(pin)` of one button: each poll is the pair of the raw state
and the time read in that call. Returns the event codes in order and the final globals. -/
def pollSeq (pin : Nat) : List (Bool × Nat) → Buttons → List Int × Buttons
  | [], st => ([], st)
  | (s, now) :: rest, st =>
    let r := btnEvent pin s now st
    let q := pollSeq pin rest r.2
    (r.1 :: q.1, q.2)

/-- The polls of one press of a button: the press transition at time `p`, held polls at
the times `held`, and the release transition at time `r`. -/
def pressPolls (p : Nat) (held : List Nat) (r : Nat) : List (Bool × Nat) :=
  (true, p) :: (held.map fun t => (true, t)) ++ [(false, r)]

/-! ## Wi-Fi list: selection and page -/

/-- The globals `wifiSel`, `wifiPage` and the local `selectionChanged` of one iteration of
the loop of `wifiList`. -/
structure ListState where
  wifiSel : Int
  wifiPage : Int
  selectionChanged : Bool
  deriving DecidableEq, Repr

/-- The block `if (u == 1) { ... }` of `wifiList`. -/
def upShort (s : ListState) : ListState :=
  let sel := if s.wifiSel > 0 then s.wifiSel - 1 else s.wifiSel
  let page := if sel < s.wifiPage then max 0 (s.wifiPage - 5) else s.wifiPage
  { wifiSel := sel, wifiPage := page, selectionChanged := true }

/-- The block `if (u == 2) { ... }` of `wifiList`. -/
def upLong (s : ListState) : ListState :=
  let page := max 0 (s.wifiPage - 5)
  { wifiSel := page, wifiPage := page, selectionChanged := true }

/-- The block `if (d == 1) { ... }` of `wifiList`. -/
def downShort (wifiCount : Int) (s : ListState) : ListState :=
  let sel := if s.wifiSel < wifiCount - 1 then s.wifiSel + 1 else s.wifiSel
  let page := if sel ≥ s.wifiPage + 5 then s.wifiPage + 5 else s.wifiPage
  { wifiSel := sel, wifiPage := page, selectionChanged := true }

/-- The block `if (d == 2) { ... }` of `wifiList`. -/
def downLong (wifiCount : Int) (s : ListState) : ListState :=
  if s.wifiPage + 5 < wifiCount then
    { wifiSel := s.wifiPage + 5, wifiPage := s.wifiPage + 5, selectionChanged := true }
  else s

/-- The motion handling of one iteration of `wifiList` (from `bool selectionChanged = false;`
to the end of the `d == 2` block): `u` and `d` are the values returned by
`btnEvent(BTN_UP)` and `btnEvent(BTN_DOWN)` in this iteration. -/
def listMotion (wifiCount u d : Int) (wifiSel wifiPage : Int) : ListState :=
  let s0 : ListState := { wifiSel := wifiSel, wifiPage := wifiPage, selectionChanged := false }
  let s1 := if u == 1 then upShort s0 else s0
  let s2 := if u == 2 then upLong s1 else s1
  let s3 := if d == 1 then downShort wifiCount s2 else s2
  let s4 := if d == 2 then downLong wifiCount s3 else s3
  s4

/-- Successive iterations of the motion handling, each with its pair `(u, d)` of event
codes, starting from `(wifiSel, wifiPage)`. -/
def listRun (wifiCount : Int) : List (Int × Int) → Int × Int → Int × Int
  | [], sp => sp
  | (u, d) :: rest, sp =>
    let s := listMotion wifiCount u d sp.1 sp.2
    listRun wifiCount rest (s.wifiSel, s.wifiPage)

/-- The pagination invariant of the specification, with `pageSize = 5`. -/
def ListInv (s : ListState) : Prop :=
  s.wifiPage ≤ s.wifiSel ∧ s.wifiSel < s.wifiPage + 5 ∧ s.wifiPage % 5 = 0

/-- What one iteration of `wifiList` draws, as far as selection and paging decide it:
either the centred text "No networks", or the rows of the current page (their indices
into the scan list) with the page and position indicators. -/
inductive WifiView where
  | noNetworks
  | page (rows : List Int) (currentPage totalPages position total : Int)
  deriving DecidableEq, Repr

/-- The drawing part of one iteration of `wifiList`, reduced to the indices and numbers
it prints. -/
def wifiListView (wifiCount wifiSel wifiPage : Int) : WifiView :=
  if wifiCount == 0 then .noNetworks
  else
    let lines := min 5 (wifiCount - wifiPage)
    let rows := (List.range lines.toNat).map fun (i : Nat) => wifiPage + (i : Int)
    let totalPages := Int.tdiv (wifiCount + 4) 5
    let currentPage := Int.tdiv wifiPage 5 + 1
    .page rows currentPage totalPages (wifiSel + 1) wifiCount

/-! ### The reference definitions of the specification (section 4.3, `pageSize = 5`) -/

/-- Spec: `Up`: `selectedIndex = max(0, selectedIndex-1)`; if `selectedIndex < pageStart`,
`pageStart = max(0, pageStart - pageSize)`. -/
def specUp (sel page : Int) : Int × Int :=
  let sel1 := max 0 (sel - 1)
  (sel1, if sel1 < page then max 0 (page - 5) else page)

/-- Spec: `Down`: `selectedIndex = min(totalCount-1, selectedIndex+1)`; if
`selectedIndex ≥ pageStart+pageSize`, `pageStart += pageSize`. -/
def specDown (totalCount sel page : Int) : Int × Int :=
  let sel1 := min (totalCount - 1) (sel + 1)
  (sel1, if sel1 ≥ page + 5 then page + 5 else page)

/-- Spec: `UpPage`: `pageStart = max(0, pageStart - pageSize)`; `selectedIndex = pageStart`. -/
def specUpPage (_sel page : Int) : Int × Int :=
  let page1 := max 0 (page - 5)
  (page1, page1)

/-- Spec: `DownPage`: only if `pageStart + pageSize < totalCount`: `pageStart += pageSize`;
`selectedIndex = pageStart`. -/
def specDownPage (totalCount sel page : Int) : Int × Int :=
  if page + 5 < totalCount then (page + 5, page + 5) else (sel, page)

/-! ## Menu and sub-screens -/

/-- Source: `const int MENU_COUNT = 4;` -/
def MENU_COUNT : Int := 4

/-- The loop that is running: the loop of `uiTask` (the menu) or the loop of the
sub-screen function it has called. `wifiDetails` carries its arguments `idx` and its local
`field`; `ledMenu` carries its local `st`. -/
inductive Screen where
  | menu
  | showMac
  | wifiList
  | wifiDetails (idx : Int) (field : Int)
  | ledMenu (st : Bool)
  | showLight
  deriving DecidableEq, Repr

/-- The navigation state: the running loop and the globals `menuIndex`, `inSub`,
`wifiCount`, `wifiSel`, `wifiPage`. The display and the scroller are written by the loops
but never read by their control flow; they are not part of this state. -/
structure Ui where
  screen : Screen
  menuIndex : Int
  inSub : Bool
  wifiCount : Int
  wifiSel : Int
  wifiPage : Int
  deriving DecidableEq, Repr

/-- The state in which `uiTask` starts. -/
def Ui.init : Ui :=
  { screen := .menu, menuIndex := 0, inSub := false, wifiCount := 0, wifiSel := 0,
    wifiPage := 0 }

/-- What one loop iteration reads from outside: the values `u`, `d`, `c` returned by
`btnEvent(BTN_UP)`, `btnEvent(BTN_DOWN)`, `btnEvent(BTN_SELECT)` (a loop that does not poll
a button ignores its value), the access-point count that the scan stores into `wifiCount`
if `wifiList` is entered in this iteration, and the level of `LED_PIN` read if `ledMenu` is
entered. Below, an iteration is written `⟨u, d, c, scan, ledLevel⟩` and a state
`⟨screen, menuIndex, inSub, wifiCount, wifiSel, wifiPage⟩`. -/
structure Tick where
  u : Int
  d : Int
  c : Int
  scan : Nat
  ledLevel : Nat
  deriving DecidableEq, Repr

/-- The value of the `int wifiCount` after the scan has stored a `uint16_t` count in it. -/
def scanCount (n : Nat) : Int := ((n % 65536 : Nat) : Int)

/-- One iteration of the loop of `uiTask` while no sub-screen runs
(the body of `if (!inSub) { ... }`). Entering a sub-screen function ends the step: the
iterations of that function are the following steps. -/
def uiTaskStep (t : Tick) (s : Ui) : Ui :=
  let m1 :=
    if t.u == 1 then Int.tmod (s.menuIndex - 1 + MENU_COUNT) MENU_COUNT else s.menuIndex
  let m2 := if t.d == 1 then Int.tmod (m1 + 1) MENU_COUNT else m1
  let s2 : Ui := { s with menuIndex := m2 }
  if t.c == 1 then
    if m2 == 0 then { s2 with inSub := true, screen := .showMac }
    else if m2 == 1 then
      { s2 with inSub := true, screen := .wifiList, wifiCount := scanCount t.scan,
                wifiSel := 0, wifiPage := 0 }
    else if m2 == 2 then { s2 with inSub := true, screen := .ledMenu (t.ledLevel == 0) }
    else if m2 == 3 then { s2 with inSub := true, screen := .showLight }
    else { s2 with inSub := false }
  else s2

/-- The return of a sub-screen function to `uiTask`: `inSub = false; drawMenu();`. -/
def backToMenu (s : Ui) : Ui := { s with screen := .menu, inSub := false }

/-- One iteration of the loop of `wifiList`, after the drawing: motion handling, then
`if (c == 1 && wifiCount > 0) wifiDetails(wifiSel, list[wifiSel]);` (the step ends on
entering `wifiDetails`), then `if (c == 2 || c == 3) return;`. -/
def wifiListStep (t : Tick) (s : Ui) : Ui :=
  let m := listMotion s.wifiCount t.u t.d s.wifiSel s.wifiPage
  let s1 : Ui := { s with wifiSel := m.wifiSel, wifiPage := m.wifiPage }
  if t.c == 1 && s1.wifiCount > 0 then { s1 with screen := .wifiDetails s1.wifiSel 0 }
  else if t.c == 2 || t.c == 3 then backToMenu s1
  else s1

/-- One iteration of the loop of `wifiDetails`; on `return` the calling iteration of
`wifiList` goes on with its own `c`, which is 1, so it does not return and `wifiList`
keeps running. -/
def wifiDetailsStep (t : Tick) (idx field : Int) (s : Ui) : Ui :=
  let f1 := if t.u == 1 then Int.tmod (field + 4) 5 else field
  let f2 := if t.d == 1 then Int.tmod (f1 + 1) 5 else f1
  if t.c == 1 || t.c == 3 then { s with screen := .wifiList }
  else { s with screen := .wifiDetails idx f2 }

/-- One iteration of the loop of `ledMenu`. -/
def ledMenuStep (t : Tick) (st : Bool) (s : Ui) : Ui :=
  let st1 := if t.u == 1 || t.d == 1 then !st else st
  if t.c == 1 || t.c == 3 then backToMenu s
  else { s with screen := .ledMenu st1 }

/-- One iteration of the loop of `showMac`. -/
def showMacStep (t : Tick) (s : Ui) : Ui :=
  if t.c == 1 || t.c == 3 then backToMenu s else s

/-- One iteration of the loop of `showLight`. -/
def showLightStep (t : Tick) (s : Ui) : Ui :=
  if t.c == 1 || t.c == 3 then backToMenu s else s

/-- One iteration of whichever loop is running. -/
def uiStep (t : Tick) (s : Ui) : Ui :=
  match s.screen with
  | .menu => if !s.inSub then uiTaskStep t s else s
  | .showMac => showMacStep t s
  | .wifiList => wifiListStep t s
  | .wifiDetails idx field => wifiDetailsStep t idx field s
  | .ledMenu st => ledMenuStep t st s
  | .showLight => showLightStep t s

/-- Successive loop iterations. -/
def uiRun : List Tick → Ui → Ui
  | [], s => s
  | t :: rest, s => uiRun rest (uiStep t s)

/-! ## Text scroller

The text of a `std::string` is the list of its `char`s. The display's `textWidth` is a
parameter: `textWidth s` is the value of `display.textWidth(s.c_str())`. -/

/-- The conversion of an `int` to the 32-bit unsigned `size_t`. -/
def toSize (x : Int) : Nat := (x % 4294967296).toNat

/-- The members `charOffset`, `lastUpdate`, `isScrolling` of `class TextScroller`. -/
structure TextScroller where
  charOffset : Int
  lastUpdate : Nat
  isScrolling : Bool
  deriving DecidableEq, Repr

/-- The constructor `TextScroller() : charOffset(0), lastUpdate(0), isScrolling(false)`. -/
def TextScroller.new : TextScroller := ⟨0, 0, false⟩

/-- Source: `void reset()`; `now` is the value of `get_millis()` in this call. -/
def TextScroller.reset (now : Nat) (_sc : TextScroller) : TextScroller :=
  { charOffset := 0, lastUpdate := now, isScrolling := false }

/-- Source: `void update(const std::string &text, int width)`; `now` is the value of
`get_millis()` in this call. The result is `none` when the call evaluates
`(charOffset + 1) % text.length()` with `text.length() == 0`, a modulo by zero. -/
def TextScroller.update (textWidth : List Char → Int) (text : List Char) (width : Int)
    (now : Nat) (sc : TextScroller) : Option TextScroller :=
  let tw := textWidth text
  let isScrolling := decide (tw > width)
  if !isScrolling then
    some { sc with isScrolling := isScrolling, charOffset := 0 }
  else if sub32 now sc.lastUpdate > 300 then
    if text.length = 0 then none
    else
      some { charOffset := ((toSize (sc.charOffset + 1) % text.length : Nat) : Int),
             lastUpdate := now, isScrolling := isScrolling }
  else some { sc with isScrolling := isScrolling }

/-- Successive calls `update(text, width)` with the same text and width, at the times of
the list. -/
def updateRun (textWidth : List Char → Int) (text : List Char) (width : Int) :
    List Nat → TextScroller → Option TextScroller
  | [], sc => some sc
  | now :: rest, sc =>
    match sc.update textWidth text width now with
    | none => none
    | some sc1 => updateRun textWidth text width rest sc1

/-- The loop `for (char c : scrollingText)` of `draw`: the characters appended to
`displayText`, starting with the running width `currentWidth`. -/
def fitLoop (textWidth : List Char → Int) (width : Int) : List Char → Int → List Char
  | [], _ => []
  | c :: rest, currentWidth =>
    let charWidth := textWidth [c]
    if currentWidth + charWidth ≤ width then
      c :: fitLoop textWidth width rest (currentWidth + charWidth)
    else []

/-- One `display.setCursor(x, y); display.print(text);`. -/
structure Printed where
  x : Int
  y : Int
  text : List Char
  deriving DecidableEq, Repr

/-- The string `text.substr(charOffset) + "  " + text.substr(0, charOffset)` of `draw`, for
an offset within the text. -/
def scrollingText (text : List Char) (off : Nat) : List Char :=
  text.drop off ++ [' ', ' '] ++ text.take off

/-- Source: `void draw(const std::string &text, int x, int y, int width)`. The result is
`none` when `text.substr(charOffset)` is called with an offset beyond the length of the
text (`std::out_of_range`); a negative `charOffset` converts to a `size_t` of at least
`2^31`, beyond the length of any string. -/
def TextScroller.draw (textWidth : List Char → Int) (text : List Char) (x y width : Int)
    (sc : TextScroller) : Option Printed :=
  if !sc.isScrolling then some ⟨x, y, text⟩
  else if sc.charOffset < 0 ∨ (text.length : Int) < sc.charOffset then none
  else some ⟨x, y, fitLoop textWidth width (scrollingText text sc.charOffset.toNat) 0⟩

/-- The sum of the widths of the characters of a string, each measured on its own as in
`draw`. -/
def sumWidths (textWidth : List Char → Int) (s : List Char) : Int :=
  (s.map fun c => textWidth [c]).sum

/-- A text width of `w` pixels per character, as a fixed-width font measures it (the
fixed-width `fonts::Font0` that `drawMenu` selects has `w = 6`); it stands for the
parameter `textWidth` at concrete inputs. -/
def fixedWidth (w : Int) : List Char → Int := fun s => w * (s.length : Int)

/-- The condition that the scroller state keeps along `update` calls on one text. -/
def OffsetValid (text : List Char) (sc : TextScroller) : Prop :=
  0 ≤ sc.charOffset ∧ (sc.isScrolling = true → sc.charOffset < (text.length : Int)) ∧
    (sc.isScrolling = false → sc.charOffset = 0)

/-! ## Wi-Fi list: row text and scroller reset -/

/-- The loop `while (maxChars > 3 && display.textWidth(ssid.substr(0, maxChars).c_str()) > 85)
maxChars--;` of `wifiList`: the final value of `maxChars`, from its value at the loop
head. -/
def truncLoop (textWidth : List Char → Int) (ssid : List Char) : Nat → Nat
  | 0 => 0
  | n + 1 =>
    if n + 1 > 3 ∧ textWidth (ssid.take (n + 1)) > 85 then truncLoop textWidth ssid n
    else n + 1

/-- The text printed for a row that is not selected (the `else` branch of
`if (idx == wifiSel)` in `wifiList`). -/
def staticRowText (textWidth : List Char → Int) (ssid : List Char) : List Char :=
  if textWidth ssid > 85 then
    let maxChars := truncLoop textWidth ssid ssid.length
    ssid.take maxChars ++ ['.', '.', '.']
  else ssid

/-- The part of one iteration of `wifiList` from `bool selectionChanged = false;` to the
end of `if (selectionChanged) { scroller.reset(); }`: the motion handling and the reset of
the global `scroller`; `now` is the value of `get_millis()` read by `reset`. -/
def wifiListMotionReset (wifiCount u d : Int) (now : Nat) (wifiSel wifiPage : Int)
    (sc : TextScroller) : ListState × TextScroller :=
  let m := listMotion wifiCount u d wifiSel wifiPage
  (m, if m.selectionChanged then sc.reset now else sc)

/-- The bounds that hold along the motions of a non-empty list, besides `ListInv`. -/
def ListBounds (wifiCount : Int) (s : ListState) : Prop :=
  0 ≤ s.wifiPage ∧ s.wifiSel < wifiCount

/-! ## Classifier: basic facts -/

theorem sub32_add (p d : Nat) (hd : d < U32) : sub32 ((p + d) % U32) p = d := by
  unfold sub32
  unfold U32 at *
  omega

theorem sub32_sentinel (r : Nat) : sub32 r 0xFFFFFFFF = (r + 1) % U32 := by
  unfold sub32 U32
  omega

theorem pollSeq_cons (pin : Nat) (s : Bool) (now : Nat) (rest : List (Bool × Nat))
    (st : Buttons) :
    pollSeq pin ((s, now) :: rest) st =
      ((btnEvent pin s now st).1 :: (pollSeq pin rest (btnEvent pin s now st).2).1,
        (pollSeq pin rest (btnEvent pin s now st).2).2) := rfl

theorem btnEvent_press (pin now : Nat) (st : Buttons) (h : st.lastState (btnIdx pin) = false) :
    btnEvent pin true now st =
      (0, { lastState := Function.update st.lastState (btnIdx pin) true,
            pressedAt := Function.update st.pressedAt (btnIdx pin) now }) := by
  simp [btnEvent, h]

theorem btnEvent_idle (pin now : Nat) (st : Buttons) (h : st.lastState (btnIdx pin) = false) :
    btnEvent pin false now st = (0, st) := by
  simp [btnEvent, h]

theorem btnEvent_release (pin now : Nat) (st : Buttons) (h : st.lastState (btnIdx pin) = true) :
    btnEvent pin false now st =
      (if sub32 now (st.pressedAt (btnIdx pin)) ≥ longPress then 3 else 1,
        { st with lastState := Function.update st.lastState (btnIdx pin) false }) := by
  by_cases ht : longPress ≤ sub32 now (st.pressedAt (btnIdx pin)) <;> simp [btnEvent, h, ht]

theorem btnEvent_held_quiet (pin now : Nat) (st : Buttons)
    (h : st.lastState (btnIdx pin) = true)
    (hq : sub32 now (st.pressedAt (btnIdx pin)) < longPress ∨
      st.pressedAt (btnIdx pin) = 0xFFFFFFFF) :
    btnEvent pin true now st = (0, st) := by
  rcases hq with hq | hq
  · have : ¬ longPress ≤ sub32 now (st.pressedAt (btnIdx pin)) := by omega
    simp [btnEvent, h, this]
  · simp [btnEvent, h, hq]

theorem btnEvent_held_fire (pin now : Nat) (st : Buttons)
    (h : st.lastState (btnIdx pin) = true)
    (ht : longPress ≤ sub32 now (st.pressedAt (btnIdx pin)))
    (hs : st.pressedAt (btnIdx pin) ≠ 0xFFFFFFFF) :
    btnEvent pin true now st =
      (2, { st with pressedAt := Function.update st.pressedAt (btnIdx pin) 0xFFFFFFFF }) := by
  simp [btnEvent, h, ht, hs]

theorem pollSeq_append (pin : Nat) (a b : List (Bool × Nat)) (st : Buttons) :
    pollSeq pin (a ++ b) st =
      ((pollSeq pin a st).1 ++ (pollSeq pin b (pollSeq pin a st).2).1,
        (pollSeq pin b (pollSeq pin a st).2).2) := by
  induction a generalizing st with
  | nil => simp [pollSeq]
  | cons x xs ih =>
    obtain ⟨s, now⟩ := x
    simp [pollSeq, ih]

/-- Held polls that do not fire (below the threshold, or the stored time already being
the sentinel) all return 0 and leave the globals as they are. -/
theorem pollSeq_held_quiet (pin : Nat) (ts : List Nat) (st : Buttons)
    (h : st.lastState (btnIdx pin) = true)
    (hq : ∀ t ∈ ts, sub32 t (st.pressedAt (btnIdx pin)) < longPress ∨
      st.pressedAt (btnIdx pin) = 0xFFFFFFFF) :
    pollSeq pin (ts.map fun t => (true, t)) st = (List.replicate ts.length 0, st) := by
  induction ts with
  | nil => simp [pollSeq]
  | cons t ts ih =>
    have h1 := btnEvent_held_quiet pin t st h (hq t (by simp))
    have h2 := ih (fun u hu => hq u (by simp [hu]))
    simp [pollSeq, h1, h2, List.replicate_succ]

/-- Idle polls (raw state not pressed while the stored state is not pressed) all return 0
and leave the globals as they are. -/
theorem pollSeq_idle (pin : Nat) (ts : List Nat) (st : Buttons)
    (h : st.lastState (btnIdx pin) = false) :
    pollSeq pin (ts.map fun t => (false, t)) st = (List.replicate ts.length 0, st) := by
  induction ts with
  | nil => simp [pollSeq]
  | cons t ts ih =>
    simp [pollSeq, btnEvent_idle pin t st h, ih, List.replicate_succ]

/-! ## Classifier: claims -/

/-- C1. Short press: with the button idle beforehand, a press polled at any time `p`, held
polls at times `p + d` with `d ≤ h`, and the release polled at `p + h` with `h < 800`
(all times modulo `2^32`) return 0 for the press poll, 0 for every held poll and 1 for the
release poll; no poll of the press returns 2 or 3. -/
theorem C1_short_press (pin p h : Nat) (ds : List Nat) (st : Buttons)
    (hidle : st.lastState (btnIdx pin) = false) (hh : h < 800)
    (hds : ∀ d ∈ ds, d ≤ h) :
    (pollSeq pin (pressPolls p (ds.map fun d => (p + d) % U32) ((p + h) % U32)) st).1
        = 0 :: (List.replicate ds.length 0 ++ [1]) ∧
      (2 : Int) ∉ (pollSeq pin
        (pressPolls p (ds.map fun d => (p + d) % U32) ((p + h) % U32)) st).1 ∧
      (3 : Int) ∉ (pollSeq pin
        (pressPolls p (ds.map fun d => (p + d) % U32) ((p + h) % U32)) st).1 := by
  have key : (pollSeq pin (pressPolls p (ds.map fun d => (p + d) % U32) ((p + h) % U32)) st).1
      = 0 :: (List.replicate ds.length 0 ++ [1]) := by
    have hU : (800 : Nat) < U32 := by simp [U32]
    set st1 : Buttons := { lastState := Function.update st.lastState (btnIdx pin) true,
                           pressedAt := Function.update st.pressedAt (btnIdx pin) p } with hst1
    have hl : st1.lastState (btnIdx pin) = true := by simp [hst1]
    have hpa : st1.pressedAt (btnIdx pin) = p := by simp [hst1]
    have hheld := pollSeq_held_quiet pin (ds.map fun d => (p + d) % U32) st1 hl (by
      intro t ht
      obtain ⟨d, hd, rfl⟩ := List.mem_map.1 ht
      left
      rw [hpa, sub32_add p d (by have := hds d hd; omega)]
      have := hds d hd
      simp only [longPress]; omega)
    have hrel := btnEvent_release pin ((p + h) % U32) st1 hl
    rw [hpa, sub32_add p h (by omega)] at hrel
    have hlt : ¬ h ≥ longPress := by simp only [longPress]; omega
    rw [if_neg hlt] at hrel
    rw [pressPolls, List.cons_append, pollSeq_cons, btnEvent_press pin p st hidle,
      pollSeq_append, hheld, pollSeq_cons, hrel]
    simp [pollSeq]
  refine ⟨key, ?_, ?_⟩ <;> rw [key] <;> simp [List.mem_replicate]

/-- Witness of C1: button 6, pressed at 4294967000, three held polls, released 799 ms
after the press, across the wrap of the millisecond counter. -/
theorem C1_short_press_witness :
    (pollSeq 6 (pressPolls 4294967000
        ([0, 300, 799].map fun d => (4294967000 + d) % U32) ((4294967000 + 799) % U32))
        Buttons.init).1
        = 0 :: (List.replicate [0, 300, 799].length 0 ++ [1]) ∧
      (2 : Int) ∉ (pollSeq 6 (pressPolls 4294967000
        ([0, 300, 799].map fun d => (4294967000 + d) % U32) ((4294967000 + 799) % U32))
        Buttons.init).1 ∧
      (3 : Int) ∉ (pollSeq 6 (pressPolls 4294967000
        ([0, 300, 799].map fun d => (4294967000 + d) % U32) ((4294967000 + 799) % U32))
        Buttons.init).1 :=
  C1_short_press 6 4294967000 799 [0, 300, 799] Buttons.init rfl (by decide) (by decide)

/-- C2, as stated, fails: button 6 polled pressed at time 1000 and polled released at
time 1800 with no held poll in between is a press of `h = 800 ≥ 800` ms whose events are
`[0, 3]`: they contain no 2 (LongPressStart) at all. -/
theorem C2_counterexample :
    sub32 1800 1000 ≥ 800 ∧
      (pollSeq BTN_SELECT (pressPolls 1000 [] 1800) Buttons.init).1 = [0, 3] ∧
      (pollSeq BTN_SELECT (pressPolls 1000 [] 1800) Buttons.init).1.count 2 = 0 := by
  decide

/-- C2, amended. With the button idle beforehand and a press polled at time `p`:
(a) if `p` is not `0xFFFFFFFF`, some held poll is at or beyond the threshold (`tk` being
the first such poll, after the polls `pre` and before the polls `post`) and the release is
polled at a time `r` with `(r + 1) mod 2^32 ≥ 800`, then the events are 0 for the press and
for every poll of `pre`, 2 for `tk`, 0 for every poll of `post` and 3 for the release:
exactly one 2, then exactly one 3, never a 1;
(b) if every held poll is below the threshold and the release is polled at `r` with
`(r - p) mod 2^32 ≥ 800`, then the events are 0 for the press and every held poll and 3
for the release: no 2 and no 1. -/
theorem C2_long_press (pin p : Nat) (st : Buttons)
    (hidle : st.lastState (btnIdx pin) = false) :
    (∀ (pre post : List Nat) (tk r : Nat), p ≠ 0xFFFFFFFF →
        (∀ t ∈ pre, sub32 t p < 800) → 800 ≤ sub32 tk p → 800 ≤ (r + 1) % U32 →
        (pollSeq pin (pressPolls p (pre ++ tk :: post) r) st).1 =
          0 :: (List.replicate pre.length 0 ++ 2 :: (List.replicate post.length 0 ++ [3]))) ∧
      (∀ (held : List Nat) (r : Nat),
        (∀ t ∈ held, sub32 t p < 800) → 800 ≤ sub32 r p →
        (pollSeq pin (pressPolls p held r) st).1 =
          0 :: (List.replicate held.length 0 ++ [3])) := by
  set st1 : Buttons := { lastState := Function.update st.lastState (btnIdx pin) true,
                         pressedAt := Function.update st.pressedAt (btnIdx pin) p } with hst1
  have hl : st1.lastState (btnIdx pin) = true := by simp [hst1]
  have hpa : st1.pressedAt (btnIdx pin) = p := by simp [hst1]
  constructor
  · intro pre post tk r hp hpre hk hr
    set st2 : Buttons :=
      { st1 with pressedAt := Function.update st1.pressedAt (btnIdx pin) 0xFFFFFFFF } with hst2
    have hl2 : st2.lastState (btnIdx pin) = true := by simp [hst2, hl]
    have hpa2 : st2.pressedAt (btnIdx pin) = 0xFFFFFFFF := by simp [hst2]
    have h1 := pollSeq_held_quiet pin pre st1 hl (fun t ht => Or.inl (by
      rw [hpa]; exact hpre t ht))
    have h2 := btnEvent_held_fire pin tk st1 hl (by rw [hpa]; exact hk) (by rw [hpa]; exact hp)
    have h3 := pollSeq_held_quiet pin post st2 hl2 (fun t _ => Or.inr hpa2)
    have h4 := btnEvent_release pin r st2 hl2
    rw [hpa2, sub32_sentinel, if_pos (by simpa [longPress] using hr)] at h4
    rw [pressPolls, List.cons_append, pollSeq_cons, btnEvent_press pin p st hidle,
      List.map_append, List.append_assoc, pollSeq_append, h1, List.map_cons, List.cons_append,
      pollSeq_cons, h2, pollSeq_append, h3, pollSeq_cons, h4]
    simp [pollSeq]
  · intro held r hheld hr
    have h1 := pollSeq_held_quiet pin held st1 hl (fun t ht => Or.inl (by
      rw [hpa]; exact hheld t ht))
    have h4 := btnEvent_release pin r st1 hl
    rw [hpa, if_pos (by simpa [longPress] using hr)] at h4
    rw [pressPolls, List.cons_append, pollSeq_cons, btnEvent_press pin p st hidle,
      pollSeq_append, h1, pollSeq_cons, h4]
    simp [pollSeq]

/-- Witness of the amended C2: button 6 pressed at time 1000; held polls at 1100, 1700,
1800, 1900, 2000 and release at 2100 give `[0, 0, 0, 2, 0, 0, 3]`; held polls at 1100 and
1700 and release at 1800 give `[0, 0, 0, 3]`. -/
theorem C2_long_press_witness :
    (pollSeq 6 (pressPolls 1000 ([1100, 1700] ++ 1800 :: [1900, 2000]) 2100) Buttons.init).1
        = 0 :: (List.replicate 2 0 ++ 2 :: (List.replicate 2 0 ++ [3])) ∧
      (pollSeq 6 (pressPolls 1000 [1100, 1700] 1800) Buttons.init).1
        = 0 :: (List.replicate 2 0 ++ [3]) :=
  ⟨(C2_long_press 6 1000 Buttons.init rfl).1 [1100, 1700] [1900, 2000] 1800 2100
      (by decide) (by decide) (by decide) (by decide),
    (C2_long_press 6 1000 Buttons.init rfl).2 [1100, 1700] 1800 (by decide) (by decide)⟩

/-- C3 fails on the code: button 6 is polled pressed at `2^32 - 500`, polled held every
100 ms up to `2^32 + 300` (time 300 after the wrap of the millisecond counter, where 2 is
returned), and polled released at time 400. The real hold time is
`(400 - (2^32 - 500)) mod 2^32 = 900 ≥ 800`, yet the release poll returns 1, not 3: the
long-start poll has overwritten `pressedAt` with `0xFFFFFFFF`, so the release computes
`400 - 0xFFFFFFFF = 401 < 800`. The stored pressed flag is false afterwards. -/
theorem C3_release_after_long_start :
    sub32 400 4294966796 = 900 ∧
      (pollSeq BTN_SELECT (pressPolls 4294966796
        [4294966896, 4294966996, 4294967096, 4294967196, 0, 100, 200, 300] 400)
        Buttons.init).1 = [0, 0, 0, 0, 0, 0, 0, 0, 2, 1] ∧
      (pollSeq BTN_SELECT (pressPolls 4294966796
        [4294966896, 4294966996, 4294967096, 4294967196, 0, 100, 200, 300] 400)
        Buttons.init).2.lastState (btnIdx BTN_SELECT) = false := by
  decide

/-- C10. Idempotence when idle: when the stored state of a button is not-pressed, a poll
with raw state not-pressed returns 0 at any timestamp and leaves `lastState` and
`pressedAt` unchanged, and so does any sequence of such polls; and after any release poll
(raw state not-pressed, whatever was stored before) any number of further polls with raw
state not-pressed all return 0 and change nothing. -/
theorem C10_idle_idempotent (pin : Nat) (st : Buttons) :
    (st.lastState (btnIdx pin) = false →
        (∀ now : Nat, btnEvent pin false now st = (0, st)) ∧
        (∀ ts : List Nat,
          pollSeq pin (ts.map fun t => (false, t)) st = (List.replicate ts.length 0, st))) ∧
      (∀ (r : Nat) (ts : List Nat),
        pollSeq pin (ts.map fun t => (false, t)) (btnEvent pin false r st).2 =
          (List.replicate ts.length 0, (btnEvent pin false r st).2)) := by
  refine ⟨fun h => ⟨fun now => btnEvent_idle pin now st h, fun ts => pollSeq_idle pin ts st h⟩,
    fun r ts => pollSeq_idle pin ts _ ?_⟩
  cases h : st.lastState (btnIdx pin)
  · rw [btnEvent_idle pin r st h]; exact h
  · rw [btnEvent_release pin r st h]; simp

/-- Witness of C10: at program start button 6 is idle; polls with the button not pressed
return 0 and leave the globals as they were, at any times. -/
theorem C10_idle_idempotent_witness :
    (∀ now : Nat, btnEvent 6 false now Buttons.init = (0, Buttons.init)) ∧
      (∀ ts : List Nat, pollSeq 6 (ts.map fun t => (false, t)) Buttons.init =
        (List.replicate ts.length 0, Buttons.init)) :=
  (C10_idle_idempotent 6 Buttons.init).1 rfl

/-- C11. Classifier frame: a call `btnEvent(pin)`, for every raw level and timestamp,
leaves `lastState[j]` and `pressedAt[j]` unchanged at every index `j` other than
`pin & 7`; the three button pins 5, 6, 7 have the pairwise distinct indices 5, 6, 7, so a
poll of one button leaves the entries of the two other buttons unchanged. -/
theorem C11_classifier_frame :
    (∀ (pin : Nat) (s : Bool) (now : Nat) (st : Buttons) (j : Fin 8), j ≠ btnIdx pin →
        (btnEvent pin s now st).2.lastState j = st.lastState j ∧
        (btnEvent pin s now st).2.pressedAt j = st.pressedAt j) ∧
      (btnIdx BTN_DOWN = 5 ∧ btnIdx BTN_SELECT = 6 ∧ btnIdx BTN_UP = 7) ∧
      (btnIdx BTN_DOWN ≠ btnIdx BTN_SELECT ∧ btnIdx BTN_DOWN ≠ btnIdx BTN_UP ∧
        btnIdx BTN_SELECT ≠ btnIdx BTN_UP) ∧
      (∀ (a b : Nat), a ∈ [BTN_DOWN, BTN_SELECT, BTN_UP] → b ∈ [BTN_DOWN, BTN_SELECT, BTN_UP] →
        a ≠ b → ∀ (s : Bool) (now : Nat) (st : Buttons),
        (btnEvent a s now st).2.lastState (btnIdx b) = st.lastState (btnIdx b) ∧
        (btnEvent a s now st).2.pressedAt (btnIdx b) = st.pressedAt (btnIdx b)) := by
  have frame : ∀ (pin : Nat) (s : Bool) (now : Nat) (st : Buttons) (j : Fin 8),
      j ≠ btnIdx pin →
      (btnEvent pin s now st).2.lastState j = st.lastState j ∧
      (btnEvent pin s now st).2.pressedAt j = st.pressedAt j := by
    intro pin s now st j hj
    unfold btnEvent
    simp only []
    split_ifs <;> simp [Function.update_noteq hj]
  refine ⟨frame, by decide, by decide, ?_⟩
  intro a b ha hb hab s now st
  apply frame
  simp only [List.mem_cons, List.mem_singleton, List.not_mem_nil, or_false] at ha hb
  rcases ha with rfl | rfl | rfl <;> rcases hb with rfl | rfl | rfl <;>
    first
      | exact absurd rfl hab
      | decide

/-- Witness of C11: a press of `BTN_UP` (index 7) at time 1234 leaves the entries of
index 5 as they were, and so does any poll of `BTN_SELECT`. -/
theorem C11_classifier_frame_witness :
    ((btnEvent 7 true 1234 Buttons.init).2.lastState 5 = Buttons.init.lastState 5 ∧
        (btnEvent 7 true 1234 Buttons.init).2.pressedAt 5 = Buttons.init.pressedAt 5) ∧
      (∀ (s : Bool) (now : Nat) (st : Buttons),
        (btnEvent BTN_SELECT s now st).2.lastState (btnIdx BTN_DOWN)
          = st.lastState (btnIdx BTN_DOWN) ∧
        (btnEvent BTN_SELECT s now st).2.pressedAt (btnIdx BTN_DOWN)
          = st.pressedAt (btnIdx BTN_DOWN)) :=
  ⟨C11_classifier_frame.1 7 true 1234 Buttons.init 5 (by decide),
    C11_classifier_frame.2.2.2 BTN_SELECT BTN_DOWN (by decide) (by decide) (by decide)⟩

/-- C16 fails on the code: button 6 is polled pressed at time `0xFFFFFFFF`, the value
that `btnEvent` also uses as the mark "long start already returned". The held polls at
times 99 and 799 are 100 ms and 800 ms after the press (across the wrap of the millisecond
counter); the poll at 799 is the first one at or beyond the threshold, yet it returns 0,
and so does every later held poll: no 2 is returned for this press, and the release at
time 899 returns 3. -/
theorem C16_long_start_missed :
    sub32 99 4294967295 = 100 ∧ sub32 799 4294967295 = 800 ∧
      (btnEvent BTN_SELECT true 799
        (pollSeq BTN_SELECT [(true, 4294967295), (true, 99)] Buttons.init).2).1 = 0 ∧
      (pollSeq BTN_SELECT (pressPolls 4294967295 [99, 799, 850] 899) Buttons.init).1
        = [0, 0, 0, 0, 3] := by
  decide

/-! ## Wi-Fi list: basic facts -/

theorem upShort_inv (s : ListState) (h : ListInv s) : ListInv (upShort s) := by
  obtain ⟨h1, h2, h3⟩ := h
  simp only [ListInv, upShort]
  split_ifs <;> omega

theorem upLong_inv (s : ListState) (h : ListInv s) : ListInv (upLong s) := by
  obtain ⟨h1, h2, h3⟩ := h
  simp only [ListInv, upLong]
  omega

theorem downShort_inv (n : Int) (s : ListState) (h : ListInv s) : ListInv (downShort n s) := by
  obtain ⟨h1, h2, h3⟩ := h
  simp only [ListInv, downShort]
  split_ifs <;> omega

theorem downLong_inv (n : Int) (s : ListState) (h : ListInv s) : ListInv (downLong n s) := by
  obtain ⟨h1, h2, h3⟩ := h
  simp only [ListInv, downLong]
  split_ifs
  · simp only; omega
  · exact ⟨h1, h2, h3⟩

theorem ListInv_ite (c : Bool) (f : ListState → ListState) (s : ListState)
    (hf : ∀ x, ListInv x → ListInv (f x)) (h : ListInv s) :
    ListInv (if c then f s else s) := by
  cases c
  · exact h
  · exact hf s h

theorem listMotion_inv (n u d sel page : Int)
    (h : page ≤ sel ∧ sel < page + 5 ∧ page % 5 = 0) :
    ListInv (listMotion n u d sel page) := by
  have h0 : ListInv { wifiSel := sel, wifiPage := page, selectionChanged := false } := h
  exact ListInv_ite _ _ _ (downLong_inv n)
    (ListInv_ite _ _ _ (downShort_inv n)
      (ListInv_ite _ _ _ upLong_inv (ListInv_ite _ _ _ upShort_inv h0)))

theorem listRun_inv (n : Int) (ms : List (Int × Int)) (sp : Int × Int)
    (h : sp.2 ≤ sp.1 ∧ sp.1 < sp.2 + 5 ∧ sp.2 % 5 = 0) :
    (listRun n ms sp).2 ≤ (listRun n ms sp).1 ∧
      (listRun n ms sp).1 < (listRun n ms sp).2 + 5 ∧ (listRun n ms sp).2 % 5 = 0 := by
  induction ms generalizing sp with
  | nil => exact h
  | cons m ms ih =>
    obtain ⟨u, d⟩ := m
    exact ih _ (listMotion_inv n u d sp.1 sp.2 h)

/-! ## Wi-Fi list: claims -/

/-- C5. Pagination invariant: for every `totalCount` (in particular every
`totalCount ≥ 0`) and every finite sequence of iterations of the motion handling, each
with any pair of event codes `(u, d)` (so Up, UpPage, Down, DownPage in any order, also an
Up-kind and a Down-kind motion in one iteration), applied from
`(wifiSel, wifiPage) = (0, 0)`, the result satisfies `wifiPage ≤ wifiSel < wifiPage + 5`
and `wifiPage mod 5 = 0`. -/
theorem C5_pagination_invariant (totalCount : Int) (ms : List (Int × Int)) :
    (listRun totalCount ms (0, 0)).2 ≤ (listRun totalCount ms (0, 0)).1 ∧
      (listRun totalCount ms (0, 0)).1 < (listRun totalCount ms (0, 0)).2 + 5 ∧
      (listRun totalCount ms (0, 0)).2 % 5 = 0 :=
  listRun_inv totalCount ms (0, 0) (by decide)

/-- C6, as stated, fails: with `totalCount = 0` in the state `(wifiSel, wifiPage) = (0, 0)`
a short Down leaves `wifiSel = 0` in the code, while the reference definition gives
`min(totalCount - 1, wifiSel + 1) = -1`. -/
theorem C6_counterexample :
    (listMotion 0 0 1 0 0).wifiSel = 0 ∧ (specDown 0 0 0).1 = -1 ∧
      ((listMotion 0 0 1 0 0).wifiSel, (listMotion 0 0 1 0 0).wifiPage) ≠ specDown 0 0 0 := by
  decide

/-- C6, amended. For every state and every `totalCount`: a short Up (`u = 1`, no Down
event) equals the reference `Up` when `wifiSel ≥ 0`; a short Down (`d = 1`, no Up event)
equals the reference `Down` when `wifiSel ≤ totalCount - 1`, and when
`wifiSel > totalCount - 1` (as for the empty list) it leaves `wifiSel` unchanged and only
applies the page rule. Scenario: with `totalCount = 12`, from `(4, 0)` six Downs give
`(10, 10)`. -/
theorem C6_single_row_motion (totalCount wifiSel wifiPage : Int) :
    (0 ≤ wifiSel →
        ((listMotion totalCount 1 0 wifiSel wifiPage).wifiSel,
          (listMotion totalCount 1 0 wifiSel wifiPage).wifiPage) = specUp wifiSel wifiPage) ∧
      (wifiSel ≤ totalCount - 1 →
        ((listMotion totalCount 0 1 wifiSel wifiPage).wifiSel,
          (listMotion totalCount 0 1 wifiSel wifiPage).wifiPage)
            = specDown totalCount wifiSel wifiPage) ∧
      (totalCount - 1 < wifiSel →
        (listMotion totalCount 0 1 wifiSel wifiPage).wifiSel = wifiSel ∧
        (listMotion totalCount 0 1 wifiSel wifiPage).wifiPage
            = if wifiSel ≥ wifiPage + 5 then wifiPage + 5 else wifiPage) ∧
      listRun 12 (List.replicate 6 (0, 1)) (4, 0) = (10, 10) := by
  refine ⟨fun h => ?_, fun h => ?_, fun h => ?_, by decide⟩
  · have e : (listMotion totalCount 1 0 wifiSel wifiPage)
        = upShort ⟨wifiSel, wifiPage, false⟩ := by simp [listMotion]
    rw [e]
    simp only [upShort, specUp, Prod.mk.injEq]
    by_cases h1 : wifiSel > 0
    · have e1 : max 0 (wifiSel - 1) = wifiSel - 1 := by omega
      simp [h1, e1]
    · have e0 : wifiSel = 0 := by omega
      subst e0
      simp
  · have e : (listMotion totalCount 0 1 wifiSel wifiPage)
        = downShort totalCount ⟨wifiSel, wifiPage, false⟩ := by simp [listMotion]
    rw [e]
    simp only [downShort, specDown, Prod.mk.injEq]
    by_cases h1 : wifiSel < totalCount - 1
    · have e1 : min (totalCount - 1) (wifiSel + 1) = wifiSel + 1 := by omega
      simp [h1, e1]
    · have e0 : wifiSel = totalCount - 1 := by omega
      subst e0
      simp
  · have e : (listMotion totalCount 0 1 wifiSel wifiPage)
        = downShort totalCount ⟨wifiSel, wifiPage, false⟩ := by simp [listMotion]
    rw [e]
    have h1 : ¬ wifiSel < totalCount - 1 := by omega
    simp [downShort, h1]

/-- Witness of the amended C6: `totalCount = 12`, state `(4, 0)` for Up and Down, and for
the third part `totalCount = 0`, state `(0, 0)`. -/
theorem C6_single_row_motion_witness :
    ((listMotion 12 1 0 4 0).wifiSel, (listMotion 12 1 0 4 0).wifiPage) = specUp 4 0 ∧
      ((listMotion 12 0 1 4 0).wifiSel, (listMotion 12 0 1 4 0).wifiPage) = specDown 12 4 0 ∧
      ((listMotion 0 0 1 0 0).wifiSel = 0 ∧
        (listMotion 0 0 1 0 0).wifiPage = if (0 : Int) ≥ 0 + 5 then 0 + 5 else 0) :=
  ⟨(C6_single_row_motion 12 4 0).1 (by decide), (C6_single_row_motion 12 4 0).2.1 (by decide),
    (C6_single_row_motion 0 0 0).2.2.1 (by decide)⟩

/-- C7. Page motion equals the reference definition with `pageSize = 5`: for every state
and every `totalCount`, a long-press Up (`u = 2`, no Down event) sets
`wifiPage' = max(0, wifiPage - 5)` and `wifiSel' = wifiPage'`; a long-press Down (`d = 2`,
no Up event) sets `wifiPage' = wifiPage + 5` and `wifiSel' = wifiPage'` when
`wifiPage + 5 < totalCount` and otherwise leaves `(wifiSel, wifiPage)` unchanged. -/
theorem C7_page_motion (totalCount wifiSel wifiPage : Int) :
    ((listMotion totalCount 2 0 wifiSel wifiPage).wifiSel,
        (listMotion totalCount 2 0 wifiSel wifiPage).wifiPage) = specUpPage wifiSel wifiPage ∧
      (listMotion totalCount 2 0 wifiSel wifiPage).wifiPage = max 0 (wifiPage - 5) ∧
      (listMotion totalCount 2 0 wifiSel wifiPage).wifiSel = max 0 (wifiPage - 5) ∧
      ((listMotion totalCount 0 2 wifiSel wifiPage).wifiSel,
        (listMotion totalCount 0 2 wifiSel wifiPage).wifiPage)
          = specDownPage totalCount wifiSel wifiPage ∧
      ((listMotion totalCount 0 2 wifiSel wifiPage).wifiSel,
        (listMotion totalCount 0 2 wifiSel wifiPage).wifiPage)
          = if wifiPage + 5 < totalCount then (wifiPage + 5, wifiPage + 5)
            else (wifiSel, wifiPage) := by
  have e : (listMotion totalCount 2 0 wifiSel wifiPage)
      = upLong ⟨wifiSel, wifiPage, false⟩ := by simp [listMotion]
  have e2 : (listMotion totalCount 0 2 wifiSel wifiPage)
      = downLong totalCount ⟨wifiSel, wifiPage, false⟩ := by simp [listMotion]
  rw [e, e2]
  refine ⟨rfl, rfl, rfl, ?_, ?_⟩ <;>
    by_cases h : wifiPage + 5 < totalCount <;> simp [downLong, specDownPage, h]

/-- With an empty list, the motion handling leaves `(wifiSel, wifiPage) = (0, 0)` for
every pair of event codes. -/
theorem listMotion_empty (u d : Int) :
    (listMotion 0 u d 0 0).wifiSel = 0 ∧ (listMotion 0 u d 0 0).wifiPage = 0 := by
  by_cases h1 : u = 1 <;> by_cases h2 : u = 2 <;> by_cases h3 : d = 1 <;>
    by_cases h4 : d = 2 <;>
    simp [listMotion, upShort, upLong, downShort, downLong, h1, h2, h3, h4]

/-- C8. Empty list is inert: with `wifiCount = 0` and `(wifiSel, wifiPage) = (0, 0)`,
the motion handling leaves `(0, 0)` for every pair of event codes, in particular for Up,
UpPage, Down and DownPage; an iteration of `wifiList` in that state never enters
`wifiDetails` (a Select ShortRelease leaves `wifiList` running with the state unchanged);
and the view drawn is the "No networks" branch. -/
theorem C8_empty_list_inert :
    (∀ u d : Int, (listMotion 0 u d 0 0).wifiSel = 0 ∧ (listMotion 0 u d 0 0).wifiPage = 0) ∧
      (∀ (t : Tick) (s : Ui), s.screen = .wifiList → s.wifiCount = 0 → s.wifiSel = 0 →
        s.wifiPage = 0 →
        (uiStep t s).wifiSel = 0 ∧ (uiStep t s).wifiPage = 0 ∧ (uiStep t s).wifiCount = 0 ∧
        (∀ idx field, (uiStep t s).screen ≠ .wifiDetails idx field) ∧
        (t.c = 1 → (uiStep t s).screen = .wifiList)) ∧
      (∀ wifiSel wifiPage : Int, wifiListView 0 wifiSel wifiPage = .noNetworks) := by
  refine ⟨listMotion_empty, ?_, fun _ _ => rfl⟩
  intro t s hs hc hsel hpage
  obtain ⟨m1, m2⟩ := listMotion_empty t.u t.d
  have hstep : uiStep t s = wifiListStep t s := by simp [uiStep, hs]
  rw [hstep]
  by_cases c1 : t.c = 1
  · simp [wifiListStep, backToMenu, hc, hsel, hpage, m1, m2, c1, hs]
  · by_cases c23 : t.c = 2 ∨ t.c = 3
    · simp [wifiListStep, backToMenu, hc, hsel, hpage, m1, m2, c1, c23]
    · simp [wifiListStep, backToMenu, hc, hsel, hpage, m1, m2, c1, c23, hs]

/-- Witness of C8: `wifiList` entered from the menu with an empty scan result, then an
iteration with a Down ShortRelease and a Select ShortRelease. -/
theorem C8_empty_list_inert_witness :
    (uiStep ⟨0, 1, 1, 0, 1⟩ ⟨.wifiList, 1, true, 0, 0, 0⟩).wifiSel = 0 ∧
      (uiStep ⟨0, 1, 1, 0, 1⟩ ⟨.wifiList, 1, true, 0, 0, 0⟩).wifiPage = 0 ∧
      (uiStep ⟨0, 1, 1, 0, 1⟩ ⟨.wifiList, 1, true, 0, 0, 0⟩).wifiCount = 0 ∧
      (∀ idx field,
        (uiStep ⟨0, 1, 1, 0, 1⟩ ⟨.wifiList, 1, true, 0, 0, 0⟩).screen
          ≠ .wifiDetails idx field) ∧
      (uiStep ⟨0, 1, 1, 0, 1⟩ ⟨.wifiList, 1, true, 0, 0, 0⟩).screen = .wifiList :=
  have h := C8_empty_list_inert.2.1 ⟨0, 1, 1, 0, 1⟩ ⟨.wifiList, 1, true, 0, 0, 0⟩
    rfl rfl rfl rfl
  ⟨h.1, h.2.1, h.2.2.1, h.2.2.2.1, h.2.2.2.2 rfl⟩

/-! ## Wi-Fi list: bounds along the motions of a non-empty list -/

theorem upShort_bounds (n : Int) (s : ListState) (h : ListInv s ∧ ListBounds n s) :
    ListInv (upShort s) ∧ ListBounds n (upShort s) := by
  refine ⟨upShort_inv s h.1, ?_⟩
  obtain ⟨⟨h1, h2, h3⟩, h4, h5⟩ := h
  simp only [ListBounds, upShort]
  split_ifs <;> omega

theorem upLong_bounds (n : Int) (s : ListState) (h : ListInv s ∧ ListBounds n s) :
    ListInv (upLong s) ∧ ListBounds n (upLong s) := by
  refine ⟨upLong_inv s h.1, ?_⟩
  obtain ⟨⟨h1, h2, h3⟩, h4, h5⟩ := h
  simp only [ListBounds, upLong]
  omega

theorem downShort_bounds (n : Int) (s : ListState) (h : ListInv s ∧ ListBounds n s) :
    ListInv (downShort n s) ∧ ListBounds n (downShort n s) := by
  refine ⟨downShort_inv n s h.1, ?_⟩
  obtain ⟨⟨h1, h2, h3⟩, h4, h5⟩ := h
  simp only [ListBounds, downShort]
  split_ifs <;> omega

theorem downLong_bounds (n : Int) (s : ListState) (h : ListInv s ∧ ListBounds n s) :
    ListInv (downLong n s) ∧ ListBounds n (downLong n s) := by
  refine ⟨downLong_inv n s h.1, ?_⟩
  obtain ⟨⟨h1, h2, h3⟩, h4, h5⟩ := h
  simp only [ListBounds, downLong]
  split_ifs
  · simp only; omega
  · exact ⟨h4, h5⟩

theorem ListState_ite (P : ListState → Prop) (c : Bool) (f : ListState → ListState)
    (s : ListState) (hf : ∀ x, P x → P (f x)) (h : P s) : P (if c then f s else s) := by
  cases c
  · exact h
  · exact hf s h

theorem listMotion_bounds (n u d sel page : Int)
    (h : (page ≤ sel ∧ sel < page + 5 ∧ page % 5 = 0) ∧ 0 ≤ page ∧ sel < n) :
    ListInv (listMotion n u d sel page) ∧ ListBounds n (listMotion n u d sel page) := by
  have h0 : ListInv { wifiSel := sel, wifiPage := page, selectionChanged := false } ∧
      ListBounds n { wifiSel := sel, wifiPage := page, selectionChanged := false } := h
  exact ListState_ite (fun x => ListInv x ∧ ListBounds n x) _ _ _ (downLong_bounds n)
    (ListState_ite (fun x => ListInv x ∧ ListBounds n x) _ _ _ (downShort_bounds n)
      (ListState_ite (fun x => ListInv x ∧ ListBounds n x) _ _ _ (upLong_bounds n)
        (ListState_ite (fun x => ListInv x ∧ ListBounds n x) _ _ _ (upShort_bounds n) h0)))

/-- Along the motions of a list with `n` entries, from a state within the bounds:
`wifiPage ≤ wifiSel < wifiPage + 5`, `wifiPage mod 5 = 0`, `0 ≤ wifiPage`, `wifiSel < n`. -/
theorem listRun_bounds (n : Int) (ms : List (Int × Int)) (sp : Int × Int)
    (h : (sp.2 ≤ sp.1 ∧ sp.1 < sp.2 + 5 ∧ sp.2 % 5 = 0) ∧ 0 ≤ sp.2 ∧ sp.1 < n) :
    ((listRun n ms sp).2 ≤ (listRun n ms sp).1 ∧
        (listRun n ms sp).1 < (listRun n ms sp).2 + 5 ∧ (listRun n ms sp).2 % 5 = 0) ∧
      0 ≤ (listRun n ms sp).2 ∧ (listRun n ms sp).1 < n := by
  induction ms generalizing sp with
  | nil => exact h
  | cons m ms ih =>
    obtain ⟨u, d⟩ := m
    exact ih _ (listMotion_bounds n u d sp.1 sp.2 h)

/-- The motion handling changes `wifiSel` only in a block that sets `selectionChanged`. -/
theorem listMotion_changed (n u d sel page : Int)
    (h : (listMotion n u d sel page).wifiSel ≠ sel) :
    (listMotion n u d sel page).selectionChanged = true := by
  by_cases h1 : u = 1 <;> by_cases h2 : u = 2 <;> by_cases h3 : d = 1 <;>
    by_cases h4 : d = 2 <;>
    simp [listMotion, upShort, upLong, downShort, downLong, h1, h2, h3, h4] at h ⊢
  all_goals (split_ifs <;> simp_all)

/-- C17. Page indicators: for every `totalCount ≥ 1` the view of `wifiList` shows
`currentPage = wifiPage / 5 + 1`, `totalPages = (totalCount + 4) / 5` and the position
`wifiSel + 1` of `totalCount` (C++ integer division); `totalPages` is the ceiling of
`totalCount / 5`, the least number of pages of 5 that hold `totalCount` entries; and in
every state reached from `(0, 0)` by list motions `1 ≤ currentPage ≤ totalPages` and
`1 ≤ position ≤ totalCount`. -/
theorem C17_page_indicators (totalCount : Int) (h : 1 ≤ totalCount) :
    (∀ wifiSel wifiPage : Int, ∃ rows,
        wifiListView totalCount wifiSel wifiPage =
          .page rows (Int.tdiv wifiPage 5 + 1) (Int.tdiv (totalCount + 4) 5) (wifiSel + 1)
            totalCount) ∧
      (totalCount ≤ 5 * Int.tdiv (totalCount + 4) 5 ∧
        5 * (Int.tdiv (totalCount + 4) 5 - 1) < totalCount) ∧
      (∀ ms : List (Int × Int),
        1 ≤ Int.tdiv (listRun totalCount ms (0, 0)).2 5 + 1 ∧
        Int.tdiv (listRun totalCount ms (0, 0)).2 5 + 1 ≤ Int.tdiv (totalCount + 4) 5 ∧
        1 ≤ (listRun totalCount ms (0, 0)).1 + 1 ∧
        (listRun totalCount ms (0, 0)).1 + 1 ≤ totalCount) := by
  have hT : Int.tdiv (totalCount + 4) 5 = (totalCount + 4) / 5 :=
    Int.tdiv_eq_ediv (by omega) (by decide)
  refine ⟨fun wifiSel wifiPage => ?_, ?_, fun ms => ?_⟩
  · have hne : ¬ totalCount = 0 := by omega
    exact ⟨_, by simp only [wifiListView, beq_iff_eq, hne, if_false]; rfl⟩
  · rw [hT]; omega
  · obtain ⟨⟨h1, h2, h3⟩, h4, h5⟩ :=
      listRun_bounds totalCount ms (0, 0) ⟨by decide, by decide, by simpa using h⟩
    have hP : Int.tdiv (listRun totalCount ms (0, 0)).2 5
        = (listRun totalCount ms (0, 0)).2 / 5 := Int.tdiv_eq_ediv h4 (by decide)
    rw [hT, hP]
    omega

/-- Witness of C17: `totalCount = 12` in the state `(10, 10)` reached by six Downs from
`(4, 0)`: page 3 of 3, position 11 of 12. -/
theorem C17_page_indicators_witness :
    (∃ rows, wifiListView 12 10 10 =
        .page rows (Int.tdiv 10 5 + 1) (Int.tdiv (12 + 4) 5) (10 + 1) 12) ∧
      ((12 : Int) ≤ 5 * Int.tdiv (12 + 4) 5 ∧ 5 * (Int.tdiv (12 + 4) 5 - 1) < (12 : Int)) :=
  ⟨(C17_page_indicators 12 (by decide)).1 10 10, (C17_page_indicators 12 (by decide)).2.1⟩

/-- C18. Selection change resets scrolling: in every iteration of `wifiList`, for every
state, every scroller state and every pair of event codes `(u, d)`, if `wifiSel` after
the motion handling differs from `wifiSel` before it, then `selectionChanged` is set and
`scroller.reset()` is executed: the scroller left by the iteration is the reset one, with
`charOffset = 0` and the scrolling flag false. -/
theorem C18_selection_change_resets (wifiCount u d : Int) (now : Nat)
    (wifiSel wifiPage : Int) (sc : TextScroller)
    (h : (wifiListMotionReset wifiCount u d now wifiSel wifiPage sc).1.wifiSel ≠ wifiSel) :
    (wifiListMotionReset wifiCount u d now wifiSel wifiPage sc).1.selectionChanged = true ∧
      (wifiListMotionReset wifiCount u d now wifiSel wifiPage sc).2 = sc.reset now ∧
      (wifiListMotionReset wifiCount u d now wifiSel wifiPage sc).2.charOffset = 0 ∧
      (wifiListMotionReset wifiCount u d now wifiSel wifiPage sc).2.isScrolling = false := by
  have hc := listMotion_changed wifiCount u d wifiSel wifiPage h
  simp only [wifiListMotionReset] at h ⊢
  simp [hc, TextScroller.reset]

/-- Witness of C18: a Down ShortRelease at `(4, 0)` in a list of 12 entries moves the
selection to 5 and resets a scroller that was scrolling at offset 3. -/
theorem C18_selection_change_resets_witness :
    (wifiListMotionReset 12 0 1 7000 4 0 ⟨3, 6800, true⟩).1.selectionChanged = true ∧
      (wifiListMotionReset 12 0 1 7000 4 0 ⟨3, 6800, true⟩).2
        = TextScroller.reset 7000 ⟨3, 6800, true⟩ ∧
      (wifiListMotionReset 12 0 1 7000 4 0 ⟨3, 6800, true⟩).2.charOffset = 0 ∧
      (wifiListMotionReset 12 0 1 7000 4 0 ⟨3, 6800, true⟩).2.isScrolling = false :=
  C18_selection_change_resets 12 0 1 7000 4 0 ⟨3, 6800, true⟩ (by decide)

/-- C19. List accesses are in bounds: for every `wifiCount ≥ 1` and every state
`(wifiSel, wifiPage)` reached from `(0, 0)` by list motions, `0 ≤ wifiSel < wifiCount`,
the number of rows `min(5, wifiCount - wifiPage)` is at least 1, every row index
`wifiPage + i` with `0 ≤ i < rows` is in `[0, wifiCount)`, the selected row is one of
them, and the rows of the view drawn are these indices: a non-empty list of indices in
`[0, wifiCount)` that contains `wifiSel`. -/
theorem C19_list_in_bounds (wifiCount : Int) (h : 1 ≤ wifiCount) (ms : List (Int × Int)) :
    (0 ≤ (listRun wifiCount ms (0, 0)).1 ∧ (listRun wifiCount ms (0, 0)).1 < wifiCount) ∧
      1 ≤ min 5 (wifiCount - (listRun wifiCount ms (0, 0)).2) ∧
      (∀ i : Int, 0 ≤ i → i < min 5 (wifiCount - (listRun wifiCount ms (0, 0)).2) →
        0 ≤ (listRun wifiCount ms (0, 0)).2 + i ∧
        (listRun wifiCount ms (0, 0)).2 + i < wifiCount) ∧
      (∃ i : Int, 0 ≤ i ∧ i < min 5 (wifiCount - (listRun wifiCount ms (0, 0)).2) ∧
        (listRun wifiCount ms (0, 0)).2 + i = (listRun wifiCount ms (0, 0)).1) ∧
      (∃ rows cp tp pos tot,
        wifiListView wifiCount (listRun wifiCount ms (0, 0)).1 (listRun wifiCount ms (0, 0)).2
          = .page rows cp tp pos tot ∧
        rows ≠ [] ∧ (∀ r ∈ rows, 0 ≤ r ∧ r < wifiCount) ∧
        (listRun wifiCount ms (0, 0)).1 ∈ rows) := by
  obtain ⟨⟨h1, h2, h3⟩, h4, h5⟩ :=
    listRun_bounds wifiCount ms (0, 0) ⟨by decide, by decide, by simpa using h⟩
  generalize (listRun wifiCount ms (0, 0)).1 = sel at *
  generalize (listRun wifiCount ms (0, 0)).2 = page at *
  have hne : ¬ wifiCount = 0 := by omega
  refine ⟨⟨by omega, h5⟩, by omega, fun i hi0 hi => by omega, ⟨sel - page, by omega, by omega,
    by omega⟩, ?_⟩
  refine ⟨_, _, _, _, _, by simp only [wifiListView, beq_iff_eq, hne, if_false]; rfl, ?_, ?_, ?_⟩
  · intro hnil
    have := congrArg List.length hnil
    simp only [List.length_map, List.length_range, List.length_nil] at this
    omega
  · intro r hr
    obtain ⟨i, hi, rfl⟩ := List.mem_map.1 hr
    have hi2 := List.mem_range.1 hi
    omega
  · refine List.mem_map.2 ⟨(sel - page).toNat, List.mem_range.2 (by omega), by omega⟩

/-- Witness of C19: `wifiCount = 12` after six Downs and one DownPage from `(0, 0)`. -/
theorem C19_list_in_bounds_witness :
    (0 ≤ (listRun 12 (List.replicate 6 (0, 1) ++ [(0, 2)]) (0, 0)).1 ∧
        (listRun 12 (List.replicate 6 (0, 1) ++ [(0, 2)]) (0, 0)).1 < 12) ∧
      1 ≤ min 5 (12 - (listRun 12 (List.replicate 6 (0, 1) ++ [(0, 2)]) (0, 0)).2) :=
  ⟨(C19_list_in_bounds 12 (by decide) (List.replicate 6 (0, 1) ++ [(0, 2)])).1,
    (C19_list_in_bounds 12 (by decide) (List.replicate 6 (0, 1) ++ [(0, 2)])).2.1⟩

/-! ## Menu and sub-screens: basic facts -/

theorem menu_up_wrap (m : Int) (h0 : 0 ≤ m) (h4 : m < 4) :
    Int.tmod (m - 1 + MENU_COUNT) MENU_COUNT = (m - 1 + 4) % 4 := by
  simp only [MENU_COUNT]
  exact Int.tmod_eq_emod (by omega) (by decide)

theorem menu_down_wrap (m : Int) (h0 : 0 ≤ m) :
    Int.tmod (m + 1) MENU_COUNT = (m + 1) % 4 := by
  simp only [MENU_COUNT]
  exact Int.tmod_eq_emod (by omega) (by decide)

/-- The value of `menuIndex` after one iteration of the menu loop. -/
theorem menuStep_menuIndex (t : Tick) (s : Ui) :
    (uiTaskStep t s).menuIndex =
      if t.d == 1 then
        Int.tmod ((if t.u == 1 then Int.tmod (s.menuIndex - 1 + MENU_COUNT) MENU_COUNT
          else s.menuIndex) + 1) MENU_COUNT
      else if t.u == 1 then Int.tmod (s.menuIndex - 1 + MENU_COUNT) MENU_COUNT
      else s.menuIndex := by
  simp only [uiTaskStep]
  split_ifs <;> rfl

/-- The range of `menuIndex` is kept by an iteration of the menu loop. -/
theorem menuStep_range (t : Tick) (s : Ui) (h0 : 0 ≤ s.menuIndex) (h4 : s.menuIndex < 4) :
    0 ≤ (uiTaskStep t s).menuIndex ∧ (uiTaskStep t s).menuIndex < 4 := by
  have hu := menu_up_wrap s.menuIndex h0 h4
  rw [menuStep_menuIndex]
  by_cases h1 : t.u = 1 <;> by_cases h2 : t.d = 1
  · simp only [h1, h2, beq_self_eq_true, if_true]
    rw [hu, menu_down_wrap _ (by omega)]; omega
  · simp only [h1, h2, beq_self_eq_true, if_true, beq_iff_eq, if_false]
    rw [hu]; omega
  · simp only [h1, h2, beq_self_eq_true, if_true, beq_iff_eq, if_false]
    rw [menu_down_wrap _ h0]; omega
  · simp only [h1, h2, beq_iff_eq, if_false]
    exact ⟨h0, h4⟩

theorem uiStep_menuIndex_of_sub (t : Tick) (s : Ui) (h : s.screen ≠ .menu) :
    (uiStep t s).menuIndex = s.menuIndex := by
  unfold uiStep
  split
  · exact absurd (by assumption) h
  · simp only [showMacStep, backToMenu]; split_ifs <;> rfl
  · simp only [wifiListStep, backToMenu]; split_ifs <;> rfl
  · simp only [wifiDetailsStep]; split_ifs <;> rfl
  · simp only [ledMenuStep, backToMenu]; split_ifs <;> rfl
  · simp only [showLightStep, backToMenu]; split_ifs <;> rfl

theorem uiStep_range (t : Tick) (s : Ui) (h0 : 0 ≤ s.menuIndex) (h4 : s.menuIndex < 4) :
    0 ≤ (uiStep t s).menuIndex ∧ (uiStep t s).menuIndex < 4 := by
  by_cases hm : s.screen = .menu
  · simp only [uiStep, hm]
    split_ifs
    · exact menuStep_range t s h0 h4
    · exact ⟨h0, h4⟩
  · rw [uiStep_menuIndex_of_sub t s hm]; exact ⟨h0, h4⟩

theorem uiRun_range (ts : List Tick) (s : Ui) (h0 : 0 ≤ s.menuIndex) (h4 : s.menuIndex < 4) :
    0 ≤ (uiRun ts s).menuIndex ∧ (uiRun ts s).menuIndex < 4 := by
  induction ts generalizing s with
  | nil => exact ⟨h0, h4⟩
  | cons t ts ih => exact ih _ (uiStep_range t s h0 h4).1 (uiStep_range t s h0 h4).2

/-! ## Menu and sub-screens: claims -/

/-- C4, as stated, fails: from the menu with `menuIndex = 1` a Select ShortRelease enters
`wifiList` (here with an empty scan result, `wifiCount = 0`), and a subsequent Select
ShortRelease does not return to the menu: `wifiList` keeps running. -/
theorem C4_counterexample :
    (uiRun [⟨0, 0, 1, 0, 1⟩] ⟨.menu, 1, false, 0, 0, 0⟩).screen = .wifiList ∧
      (uiRun [⟨0, 0, 1, 0, 1⟩] ⟨.menu, 1, false, 0, 0, 0⟩).wifiCount = 0 ∧
      (uiRun [⟨0, 0, 1, 0, 1⟩, ⟨0, 0, 1, 0, 1⟩] ⟨.menu, 1, false, 0, 0, 0⟩).screen
        = .wifiList ∧
      (uiRun [⟨0, 0, 1, 0, 1⟩, ⟨0, 0, 1, 0, 1⟩] ⟨.menu, 1, false, 0, 0, 0⟩).screen ≠ .menu := by
  decide

/-- C4, amended. In `showMac`, `showLight` and `ledMenu` a Select event 1 (ShortRelease) or
3 (LongPressReleased) returns to the menu with `menuIndex` unchanged; in `wifiDetails` it
returns to `wifiList`, the caller, with `menuIndex` unchanged; in `wifiList` the events
that return to the menu are Select 2 (LongPressStart) and 3 (LongPressReleased), with
`menuIndex` unchanged, while a Select ShortRelease with `wifiCount = 0` leaves `wifiList`
running. Scenario: from the menu with `menuIndex = 1` a Select ShortRelease enters
`wifiList`; with `wifiCount = 0` a subsequent Select ShortRelease stays in `wifiList` and
a subsequent Select LongPressReleased returns to the menu, `menuIndex` still 1. -/
theorem C4_select_back (t : Tick) (s : Ui) :
    ((s.screen = .showMac ∨ s.screen = .showLight ∨ ∃ st, s.screen = .ledMenu st) →
        (t.c = 1 ∨ t.c = 3) →
        (uiStep t s).screen = .menu ∧ (uiStep t s).menuIndex = s.menuIndex) ∧
      (∀ idx field, s.screen = .wifiDetails idx field → (t.c = 1 ∨ t.c = 3) →
        (uiStep t s).screen = .wifiList ∧ (uiStep t s).menuIndex = s.menuIndex) ∧
      (s.screen = .wifiList → (t.c = 2 ∨ t.c = 3) →
        (uiStep t s).screen = .menu ∧ (uiStep t s).menuIndex = s.menuIndex) ∧
      (s.screen = .wifiList → s.wifiCount = 0 → t.c = 1 →
        (uiStep t s).screen = .wifiList ∧ (uiStep t s).menuIndex = s.menuIndex) ∧
      (uiRun [⟨0, 0, 1, 0, 1⟩] ⟨.menu, 1, false, 0, 0, 0⟩ = ⟨.wifiList, 1, true, 0, 0, 0⟩ ∧
        uiRun [⟨0, 0, 1, 0, 1⟩, ⟨0, 0, 1, 0, 1⟩] ⟨.menu, 1, false, 0, 0, 0⟩
          = ⟨.wifiList, 1, true, 0, 0, 0⟩ ∧
        uiRun [⟨0, 0, 1, 0, 1⟩, ⟨0, 0, 1, 0, 1⟩, ⟨0, 0, 3, 0, 1⟩] ⟨.menu, 1, false, 0, 0, 0⟩
          = ⟨.menu, 1, false, 0, 0, 0⟩) := by
  refine ⟨?_, ?_, ?_, ?_, by decide⟩
  · rintro (h | h | ⟨st, h⟩) hc
    · have : (t.c == 1 || t.c == 3) = true := by rcases hc with hc | hc <;> simp [hc]
      simp [uiStep, h, showMacStep, backToMenu, this]
    · have : (t.c == 1 || t.c == 3) = true := by rcases hc with hc | hc <;> simp [hc]
      simp [uiStep, h, showLightStep, backToMenu, this]
    · have : (t.c == 1 || t.c == 3) = true := by rcases hc with hc | hc <;> simp [hc]
      simp [uiStep, h, ledMenuStep, backToMenu, this]
  · intro idx field h hc
    have : (t.c == 1 || t.c == 3) = true := by rcases hc with hc | hc <;> simp [hc]
    simp [uiStep, h, wifiDetailsStep, this]
  · intro h hc
    have h1 : ¬ t.c = 1 := by rcases hc with hc | hc <;> simp [hc]
    have : (t.c == 2 || t.c == 3) = true := by rcases hc with hc | hc <;> simp [hc]
    simp [uiStep, h, wifiListStep, backToMenu, this, h1]
  · intro h hw hc
    simp [uiStep, h, wifiListStep, backToMenu, hw, hc]

/-- Witness of the amended C4: `showMac` left by a Select ShortRelease, `wifiDetails` left
by a Select LongPressReleased, `wifiList` left by a Select LongPressStart, and `wifiList`
with an empty list kept by a Select ShortRelease. -/
theorem C4_select_back_witness :
    ((uiStep ⟨0, 0, 1, 0, 1⟩ ⟨.showMac, 0, true, 0, 0, 0⟩).screen = .menu ∧
        (uiStep ⟨0, 0, 1, 0, 1⟩ ⟨.showMac, 0, true, 0, 0, 0⟩).menuIndex = 0) ∧
      ((uiStep ⟨0, 0, 3, 0, 1⟩ ⟨.wifiDetails 2 0, 1, true, 7, 2, 0⟩).screen = .wifiList ∧
        (uiStep ⟨0, 0, 3, 0, 1⟩ ⟨.wifiDetails 2 0, 1, true, 7, 2, 0⟩).menuIndex = 1) ∧
      ((uiStep ⟨0, 0, 2, 0, 1⟩ ⟨.wifiList, 1, true, 7, 2, 0⟩).screen = .menu ∧
        (uiStep ⟨0, 0, 2, 0, 1⟩ ⟨.wifiList, 1, true, 7, 2, 0⟩).menuIndex = 1) ∧
      ((uiStep ⟨0, 0, 1, 0, 1⟩ ⟨.wifiList, 1, true, 0, 0, 0⟩).screen = .wifiList ∧
        (uiStep ⟨0, 0, 1, 0, 1⟩ ⟨.wifiList, 1, true, 0, 0, 0⟩).menuIndex = 1) :=
  ⟨(C4_select_back ⟨0, 0, 1, 0, 1⟩ ⟨.showMac, 0, true, 0, 0, 0⟩).1 (Or.inl rfl) (Or.inl rfl),
    (C4_select_back ⟨0, 0, 3, 0, 1⟩ ⟨.wifiDetails 2 0, 1, true, 7, 2, 0⟩).2.1 2 0 rfl
      (Or.inr rfl),
    (C4_select_back ⟨0, 0, 2, 0, 1⟩ ⟨.wifiList, 1, true, 7, 2, 0⟩).2.2.1 rfl (Or.inl rfl),
    (C4_select_back ⟨0, 0, 1, 0, 1⟩ ⟨.wifiList, 1, true, 0, 0, 0⟩).2.2.2.1 rfl rfl rfl⟩

/-- C9. Menu index wraps and stays in range, `MENU_COUNT = 4`: in the menu, for every
`menuIndex` in `[0, 4)`, an iteration with an Up ShortRelease (and no Down ShortRelease)
gives `(menuIndex - 1 + 4) mod 4` and one with a Down ShortRelease (and no Up
ShortRelease) gives `(menuIndex + 1) mod 4`; from 0 Up gives 3, from 3 Down gives 0; and
after every sequence of loop iterations from the start state, whatever the event codes
of Up, Down and Select, `menuIndex` is in `[0, 4)`. -/
theorem C9_menu_index_wraps :
    (∀ (t : Tick) (s : Ui), s.screen = .menu → s.inSub = false → 0 ≤ s.menuIndex →
        s.menuIndex < 4 → t.u = 1 → t.d ≠ 1 →
        (uiStep t s).menuIndex = (s.menuIndex - 1 + 4) % 4) ∧
      (∀ (t : Tick) (s : Ui), s.screen = .menu → s.inSub = false → 0 ≤ s.menuIndex →
        s.menuIndex < 4 → t.u ≠ 1 → t.d = 1 →
        (uiStep t s).menuIndex = (s.menuIndex + 1) % 4) ∧
      (uiStep ⟨1, 0, 0, 0, 1⟩ ⟨.menu, 0, false, 0, 0, 0⟩).menuIndex = 3 ∧
      (uiStep ⟨0, 1, 0, 0, 1⟩ ⟨.menu, 3, false, 0, 0, 0⟩).menuIndex = 0 ∧
      (∀ ts : List Tick,
        0 ≤ (uiRun ts Ui.init).menuIndex ∧ (uiRun ts Ui.init).menuIndex < MENU_COUNT) := by
  refine ⟨?_, ?_, by decide, by decide,
    fun ts => uiRun_range ts Ui.init (by decide) (by decide)⟩
  · intro t s hs hin h0 h4 hu hd
    have hstep : uiStep t s = uiTaskStep t s := by simp [uiStep, hs, hin]
    rw [hstep, menuStep_menuIndex]
    simp only [hu, hd, beq_self_eq_true, if_true, beq_iff_eq, if_false]
    exact menu_up_wrap s.menuIndex h0 h4
  · intro t s hs hin h0 h4 hu hd
    have hstep : uiStep t s = uiTaskStep t s := by simp [uiStep, hs, hin]
    rw [hstep, menuStep_menuIndex]
    simp only [hu, hd, beq_self_eq_true, if_true, beq_iff_eq, if_false]
    exact menu_down_wrap s.menuIndex h0

/-- Witness of C9: in the menu at `menuIndex = 2`, an Up ShortRelease gives 1 and a Down
ShortRelease gives 3. -/
theorem C9_menu_index_wraps_witness :
    (uiStep ⟨1, 0, 0, 0, 1⟩ ⟨.menu, 2, false, 0, 0, 0⟩).menuIndex = (2 - 1 + 4) % 4 ∧
      (uiStep ⟨0, 1, 0, 0, 1⟩ ⟨.menu, 2, false, 0, 0, 0⟩).menuIndex = (2 + 1) % 4 :=
  ⟨C9_menu_index_wraps.1 ⟨1, 0, 0, 0, 1⟩ ⟨.menu, 2, false, 0, 0, 0⟩ rfl rfl (by decide)
      (by decide) rfl (by decide),
    C9_menu_index_wraps.2.1 ⟨0, 1, 0, 0, 1⟩ ⟨.menu, 2, false, 0, 0, 0⟩ rfl rfl (by decide)
      (by decide) (by decide) rfl⟩

/-! ## Text scroller: basic facts -/

/-- A call of `update` on a text that does not scroll. -/
theorem update_fits (tw : List Char → Int) (text : List Char) (width : Int) (now : Nat)
    (sc : TextScroller) (h : tw text ≤ width) :
    sc.update tw text width now = some { sc with isScrolling := false, charOffset := 0 } := by
  have : ¬ width < tw text := by omega
  simp [TextScroller.update, this]

/-- A call of `update` on a non-empty text that scrolls. -/
theorem update_scrolls (tw : List Char → Int) (text : List Char) (width : Int) (now : Nat)
    (sc : TextScroller) (h : width < tw text) (hne : text ≠ []) :
    sc.update tw text width now =
      if sub32 now sc.lastUpdate > 300 then
        some { charOffset := ((toSize (sc.charOffset + 1) % text.length : Nat) : Int),
               lastUpdate := now, isScrolling := true }
      else some { sc with isScrolling := true } := by
  have hl : text.length ≠ 0 := by simpa using hne
  simp only [TextScroller.update, gt_iff_lt, h, decide_True, Bool.not_true, Bool.false_eq_true,
    if_false, hl]

/-- Every completed call of `update` leaves the flag equal to `textWidth(text) > width`. -/
theorem update_flag (tw : List Char → Int) (text : List Char) (width : Int) (now : Nat)
    (sc sc1 : TextScroller) (h : sc.update tw text width now = some sc1) :
    sc1.isScrolling = true ↔ tw text > width := by
  by_cases hw : width < tw text
  · by_cases hne : text = []
    · subst hne
      by_cases ht : sub32 now sc.lastUpdate > 300
      · simp [TextScroller.update, hw, ht] at h
      · simp [TextScroller.update, hw, ht] at h
        subst h
        simpa using hw
    · rw [update_scrolls tw text width now sc hw hne] at h
      split_ifs at h <;> (simp only [Option.some.injEq] at h; subst h; simpa using hw)
  · rw [update_fits tw text width now sc (by omega)] at h
    simp only [Option.some.injEq] at h
    subst h
    simpa using hw

/-- A non-scrolling scroller draws the whole text. -/
theorem draw_whole (tw : List Char → Int) (text : List Char) (x y width : Int)
    (sc : TextScroller) (h : sc.isScrolling = false) :
    sc.draw tw text x y width = some ⟨x, y, text⟩ := by
  simp [TextScroller.draw, h]

/-- The scroller state stays valid through a call of `update`, when the empty string has
width 0 and the slot width is not negative; the call completes. -/
theorem update_valid (tw : List Char → Int) (text : List Char) (width : Int) (now : Nat)
    (sc : TextScroller) (h0 : tw [] = 0) (hw : 0 ≤ width) (hv : OffsetValid text sc) :
    ∃ sc1, sc.update tw text width now = some sc1 ∧ OffsetValid text sc1 := by
  obtain ⟨v1, v2, v3⟩ := hv
  by_cases hs : width < tw text
  · have hne : text ≠ [] := by
      rintro rfl
      omega
    have hl : 0 < text.length := List.length_pos.2 hne
    rw [update_scrolls tw text width now sc hs hne]
    split_ifs
    · refine ⟨_, rfl, by simp only; omega, fun _ => ?_, fun h => by simp at h⟩
      simp only
      exact_mod_cast Nat.mod_lt _ hl
    · refine ⟨_, rfl, v1, fun _ => ?_, fun h => by simp at h⟩
      simp only
      cases hsc : sc.isScrolling
      · rw [v3 hsc]; exact_mod_cast hl
      · exact v2 hsc
  · rw [update_fits tw text width now sc (by omega)]
    exact ⟨_, rfl, by simp, fun h => by simp at h, fun _ => rfl⟩

theorem updateRun_valid (tw : List Char → Int) (text : List Char) (width : Int)
    (h0 : tw [] = 0) (hw : 0 ≤ width) (times : List Nat) (sc : TextScroller)
    (hv : OffsetValid text sc) :
    ∃ sc1, updateRun tw text width times sc = some sc1 ∧ OffsetValid text sc1 := by
  induction times generalizing sc with
  | nil => exact ⟨sc, rfl, hv⟩
  | cons now rest ih =>
    obtain ⟨sc1, e1, v1⟩ := update_valid tw text width now sc h0 hw hv
    obtain ⟨sc2, e2, v2⟩ := ih sc1 v1
    exact ⟨sc2, by simp only [updateRun, e1, e2], v2⟩

theorem sumWidths_cons (tw : List Char → Int) (c : Char) (s : List Char) :
    sumWidths tw (c :: s) = tw [c] + sumWidths tw s := by
  simp [sumWidths]

/-- The loop of `draw` returns a leading part of the string whose widths, added to the
running width, stay within the slot, and it stops only at the end of the string or at a
character that would no longer fit. -/
theorem fitLoop_spec (tw : List Char → Int) (width : Int) (r : List Char) (cw : Int)
    (hcw : cw ≤ width) :
    (∃ rest, r = fitLoop tw width r cw ++ rest) ∧
      cw + sumWidths tw (fitLoop tw width r cw) ≤ width ∧
      (fitLoop tw width r cw = r ∨
        ∃ c rest, r = fitLoop tw width r cw ++ c :: rest ∧
          width < cw + sumWidths tw (fitLoop tw width r cw) + tw [c]) := by
  induction r generalizing cw with
  | nil => exact ⟨⟨[], rfl⟩, by simpa [fitLoop, sumWidths] using hcw, Or.inl rfl⟩
  | cons c r ih =>
    by_cases hfit : cw + tw [c] ≤ width
    · obtain ⟨⟨rest, h1⟩, h2, h3⟩ := ih (cw + tw [c]) hfit
      have e : fitLoop tw width (c :: r) cw = c :: fitLoop tw width r (cw + tw [c]) := by
        simp [fitLoop, hfit]
      rw [e, sumWidths_cons]
      refine ⟨⟨rest, by rw [List.cons_append, ← h1]⟩, by omega, ?_⟩
      rcases h3 with h3 | ⟨c1, rest1, h3, h4⟩
      · exact Or.inl (by rw [h3])
      · exact Or.inr ⟨c1, rest1, by rw [List.cons_append, ← h3], by omega⟩
    · have e : fitLoop tw width (c :: r) cw = [] := by simp [fitLoop, hfit]
      rw [e]
      refine ⟨⟨c :: r, rfl⟩, by simpa [sumWidths] using hcw, Or.inr ⟨c, r, rfl, ?_⟩⟩
      simp only [sumWidths, List.map_nil, List.sum_nil]
      omega

/-- When no character has a negative width, no leading part of the string that stays
within the slot is longer than the one the loop of `draw` returns. -/
theorem fitLoop_longest (tw : List Char → Int) (width : Int)
    (hnn : ∀ c : Char, 0 ≤ tw [c]) (r : List Char) (cw : Int) (q rest : List Char)
    (hq : r = q ++ rest) (hs : cw + sumWidths tw q ≤ width) :
    q.length ≤ (fitLoop tw width r cw).length := by
  have hsum : ∀ s : List Char, 0 ≤ sumWidths tw s := by
    intro s
    induction s with
    | nil => simp [sumWidths]
    | cons c s ih => rw [sumWidths_cons]; have := hnn c; omega
  induction r generalizing cw q with
  | nil =>
    have : q = [] := by
      cases q with
      | nil => rfl
      | cons a q => simp at hq
    simp [this]
  | cons c r ih =>
    cases q with
    | nil => simp
    | cons a q =>
      simp only [List.cons_append, List.cons.injEq] at hq
      obtain ⟨rfl, hq⟩ := hq
      rw [sumWidths_cons] at hs
      have hfit : cw + tw [c] ≤ width := by have := hsum q; omega
      have e : fitLoop tw width (c :: r) cw = c :: fitLoop tw width r (cw + tw [c]) := by
        simp [fitLoop, hfit]
      rw [e]
      have := ih (cw + tw [c]) q hq (by omega)
      simp only [List.length_cons]
      omega

/-! ## Text scroller: claims -/

/-- A call of `update` on a text that is not empty or that fits the slot completes; the
flag is then true exactly when the text is wider than the slot, and when it is false
`charOffset` is 0 and `draw` prints the whole text. -/
theorem update_activation (tw : List Char → Int) (text : List Char) (width : Int)
    (now : Nat) (sc : TextScroller) (h : text ≠ [] ∨ tw text ≤ width) :
    ∃ sc1, sc.update tw text width now = some sc1 ∧
      (sc1.isScrolling = true ↔ tw text > width) ∧
      (sc1.isScrolling = false →
        sc1.charOffset = 0 ∧
        ∀ x y : Int, sc1.draw tw text x y width = some ⟨x, y, text⟩) := by
  by_cases hs : width < tw text
  · have hne : text ≠ [] := by
      rcases h with h | h
      · exact h
      · omega
    have e := update_scrolls tw text width now sc hs hne
    by_cases ht : sub32 now sc.lastUpdate > 300
    · rw [if_pos ht] at e
      exact ⟨_, e, by simpa using hs, fun hf => by simp at hf⟩
    · rw [if_neg ht] at e
      exact ⟨_, e, by simpa using hs, fun hf => by simp at hf⟩
  · refine ⟨_, update_fits tw text width now sc (by omega), ?_, fun _ => ⟨rfl, fun x y => ?_⟩⟩
    · simpa using hs
    · exact draw_whole tw text x y width _ rfl

/-- C12. Scroller activation: for every text and every slot width (a pixel width,
`width ≥ 0`, on a display that measures the empty string as 0 pixels wide), the call
`update(text, width)` completes and afterwards the scrolling flag is true if and only if
`textWidth(text) > width`; when it is false, `charOffset` is 0 after the call and `draw`
prints the whole text unmodified at `(x, y)`. -/
theorem C12_scroller_activation (tw : List Char → Int) (text : List Char) (width : Int)
    (now : Nat) (sc : TextScroller) (h0 : tw [] = 0) (hw : 0 ≤ width) :
    ∃ sc1, sc.update tw text width now = some sc1 ∧
      (sc1.isScrolling = true ↔ tw text > width) ∧
      (sc1.isScrolling = false →
        sc1.charOffset = 0 ∧
        ∀ x y : Int, sc1.draw tw text x y width = some ⟨x, y, text⟩) := by
  apply update_activation
  by_cases hne : text = []
  · right
    rw [hne, h0]
    exact hw
  · exact Or.inl hne

/-- Witness of C12: the text "abc", 18 pixels wide with 6 pixels per character, in a
slot of 85 pixels. -/
theorem C12_scroller_activation_witness :
    ∃ sc1, TextScroller.new.update (fixedWidth 6) ['a', 'b', 'c'] 85 500 = some sc1 ∧
      (sc1.isScrolling = true ↔ fixedWidth 6 ['a', 'b', 'c'] > 85) ∧
      (sc1.isScrolling = false →
        sc1.charOffset = 0 ∧
        ∀ x y : Int,
          sc1.draw (fixedWidth 6) ['a', 'b', 'c'] x y 85 = some ⟨x, y, ['a', 'b', 'c']⟩) :=
  C12_scroller_activation (fixedWidth 6) ['a', 'b', 'c'] 85 500 TextScroller.new
    (by decide) (by decide)

/-- C13 fails on the code: a text of 8 characters of 5 pixels each (40 pixels) in a slot of
20 pixels, a scroller reset at `t0 = 1000`, and `update` called at the 10 ticks
`t0 + 300, ..., t0 + 3000`. Scrolling is active, but `update` advances only when
`now - lastUpdate > 300`, which is false at the ticks 1, 3, 5, 7, 9 (exactly 300 ms after
the last advance): `charOffset` advances on every second tick and is 5 after the 10th
tick, not `10 mod 8 = 2`. -/
theorem C13_advance_every_second_tick :
    fixedWidth 5 ['A', 'B', 'C', 'D', 'E', 'F', 'G', 'H'] = 40 ∧
      updateRun (fixedWidth 5) ['A', 'B', 'C', 'D', 'E', 'F', 'G', 'H'] 20 [1300]
        (TextScroller.new.reset 1000) = some ⟨0, 1000, true⟩ ∧
      updateRun (fixedWidth 5) ['A', 'B', 'C', 'D', 'E', 'F', 'G', 'H'] 20 [1300, 1600]
        (TextScroller.new.reset 1000) = some ⟨1, 1600, true⟩ ∧
      updateRun (fixedWidth 5) ['A', 'B', 'C', 'D', 'E', 'F', 'G', 'H'] 20
        [1300, 1600, 1900, 2200, 2500, 2800, 3100, 3400, 3700, 4000]
        (TextScroller.new.reset 1000) = some ⟨5, 4000, true⟩ := by
  decide

/-- C20. Scroller offset stays valid for a fixed text: assuming the empty string has
width 0 and `width ≥ 0`, for every text and every sequence of `update(text, width)` calls,
at any timestamps, following `reset()`: no call computes a modulo by zero (every call
completes), and after the calls `0 ≤ charOffset`, with `charOffset < len(text)` when the
scrolling flag is true and `charOffset = 0` otherwise; hence the following `draw(text, ...)`
calls `substr` within the bounds of the text (it completes). The statement for all
sequences covers the state after each call of a sequence. -/
theorem C20_offset_valid (tw : List Char → Int) (text : List Char) (width : Int)
    (h0 : tw [] = 0) (hw : 0 ≤ width) (now0 : Nat) (sc0 : TextScroller) (times : List Nat) :
    ∃ sc, updateRun tw text width times (sc0.reset now0) = some sc ∧
      0 ≤ sc.charOffset ∧
      (sc.isScrolling = true → sc.charOffset < (text.length : Int)) ∧
      (sc.isScrolling = false → sc.charOffset = 0) ∧
      (∀ x y w : Int, ∃ p, sc.draw tw text x y w = some p) ∧
      (∀ now : Nat, ∃ sc1, sc.update tw text width now = some sc1) := by
  obtain ⟨sc, e, v⟩ := updateRun_valid tw text width h0 hw times (sc0.reset now0)
    ⟨by simp [TextScroller.reset], fun h => by simp [TextScroller.reset] at h,
      fun _ => rfl⟩
  refine ⟨sc, e, v.1, v.2.1, v.2.2, fun x y w => ?_, fun now => ?_⟩
  · cases hsc : sc.isScrolling
    · exact ⟨_, draw_whole tw text x y w sc hsc⟩
    · have h1 := v.1
      have h2 := v.2.1 hsc
      have hc : ¬ (sc.charOffset < 0 ∨ (text.length : Int) < sc.charOffset) := by omega
      exact ⟨⟨x, y, fitLoop tw w (scrollingText text sc.charOffset.toNat) 0⟩, by
        simp only [TextScroller.draw, hsc, Bool.not_true, Bool.false_eq_true, if_false, hc]⟩
  · obtain ⟨sc1, e1, _⟩ := update_valid tw text width now sc h0 hw v
    exact ⟨sc1, e1⟩

/-- Witness of C20: the text "ABCDEFGH" with 5 pixels per character in a slot of 20
pixels, three `update` calls after a reset at time 1000. -/
theorem C20_offset_valid_witness :
    ∃ sc, updateRun (fixedWidth 5) ['A', 'B', 'C', 'D', 'E', 'F', 'G', 'H'] 20
        [1301, 1400, 1700] (TextScroller.new.reset 1000) = some sc ∧
      0 ≤ sc.charOffset ∧
      (sc.isScrolling = true → sc.charOffset < 8) ∧
      (sc.isScrolling = false → sc.charOffset = 0) ∧
      (∀ x y w : Int,
        ∃ p, sc.draw (fixedWidth 5) ['A', 'B', 'C', 'D', 'E', 'F', 'G', 'H'] x y w = some p) ∧
      (∀ now : Nat,
        ∃ sc1, sc.update (fixedWidth 5) ['A', 'B', 'C', 'D', 'E', 'F', 'G', 'H'] 20 now
          = some sc1) :=
  C20_offset_valid (fixedWidth 5) ['A', 'B', 'C', 'D', 'E', 'F', 'G', 'H'] 20 (by decide)
    (by decide) 1000 TextScroller.new [1301, 1400, 1700]

/-- C14. Scrolled rendering: when scrolling is active and `0 ≤ charOffset ≤ len(text)`,
for a slot width `width ≥ 0`, the string `p` printed by `draw`, at `(x, y)`, is the longest
leading part of
`R = text[charOffset..] ++ "  " ++ text[..charOffset]` whose summed per-character widths
are `≤ width`: `R = p ++ rest` for some `rest`, the summed width of `p` is `≤ width`, and
`p` is all of `R` or appending the next character of `R` would exceed `width`; and when no
character has a negative width, no leading part of `R` with summed width `≤ width` is
longer than `p`. -/
theorem C14_scrolled_rendering (tw : List Char → Int) (text : List Char) (x y width : Int)
    (sc : TextScroller) (hs : sc.isScrolling = true) (h0 : 0 ≤ sc.charOffset)
    (h1 : sc.charOffset ≤ (text.length : Int)) (hw : 0 ≤ width) :
    ∃ p, sc.draw tw text x y width = some ⟨x, y, p⟩ ∧
      (∃ rest, text.drop sc.charOffset.toNat ++ [' ', ' '] ++ text.take sc.charOffset.toNat
        = p ++ rest) ∧
      sumWidths tw p ≤ width ∧
      (p = text.drop sc.charOffset.toNat ++ [' ', ' '] ++ text.take sc.charOffset.toNat ∨
        ∃ c rest,
          text.drop sc.charOffset.toNat ++ [' ', ' '] ++ text.take sc.charOffset.toNat
            = p ++ c :: rest ∧
          width < sumWidths tw p + tw [c]) ∧
      ((∀ c : Char, 0 ≤ tw [c]) → ∀ q rest,
        text.drop sc.charOffset.toNat ++ [' ', ' '] ++ text.take sc.charOffset.toNat
          = q ++ rest →
        sumWidths tw q ≤ width → q.length ≤ p.length) := by
  have hc : ¬ (sc.charOffset < 0 ∨ (text.length : Int) < sc.charOffset) := by omega
  have hd : sc.draw tw text x y width
      = some ⟨x, y, fitLoop tw width (scrollingText text sc.charOffset.toNat) 0⟩ := by
    simp only [TextScroller.draw, hs, Bool.not_true, Bool.false_eq_true, if_false, hc]
  have hR : scrollingText text sc.charOffset.toNat
      = text.drop sc.charOffset.toNat ++ [' ', ' '] ++ text.take sc.charOffset.toNat := rfl
  obtain ⟨f1, f2, f3⟩ := fitLoop_spec tw width (scrollingText text sc.charOffset.toNat) 0 hw
  rw [hR] at f1 f2 f3
  refine ⟨_, hd, ?_, ?_, ?_, ?_⟩
  · rw [hR]; exact f1
  · rw [hR]; omega
  · rw [hR]
    rcases f3 with f3 | ⟨c, rest, f3, f4⟩
    · exact Or.inl f3
    · exact Or.inr ⟨c, rest, f3, by omega⟩
  · intro hnn q rest hq hsq
    rw [hR]
    exact fitLoop_longest tw width hnn _ 0 q rest hq (by omega)

/-- Witness of C14: the text "ABCDEFGH" with 5 pixels per character, scrolled
by 7 characters, in a slot of 20 pixels. -/
theorem C14_scrolled_rendering_witness :
    ∃ p, TextScroller.draw (fixedWidth 5) ['A', 'B', 'C', 'D', 'E', 'F', 'G', 'H'] 15 0 20
        ⟨7, 0, true⟩ = some ⟨15, 0, p⟩ ∧
      (∃ rest, ['A', 'B', 'C', 'D', 'E', 'F', 'G', 'H'].drop (7 : Int).toNat ++ [' ', ' '] ++
        ['A', 'B', 'C', 'D', 'E', 'F', 'G', 'H'].take (7 : Int).toNat = p ++ rest) ∧
      sumWidths (fixedWidth 5) p ≤ 20 :=
  have h := C14_scrolled_rendering (fixedWidth 5) ['A', 'B', 'C', 'D', 'E', 'F', 'G', 'H']
    15 0 20 ⟨7, 0, true⟩ rfl (by decide) (by decide) (by decide)
  h.elim fun p hp => ⟨p, hp.1, hp.2.1, hp.2.2.1⟩

/-- C15 fails on the code: an SSID of 20 characters, 6 pixels per character (120 pixels,
more than the slot of 85). The loop stops at `maxChars = 14`, the longest leading part of
at most 85 pixels (84 pixels), without room for the ellipsis: the text printed is 14
characters and "...", 102 pixels wide, more than the slot, where the claim has the longest
`p` with `textWidth(p) + textWidth("...") ≤ 85`, 11 characters, 84 pixels with the
ellipsis. -/
theorem C15_ellipsis_overflows :
    fixedWidth 6 (List.replicate 20 'A') = 120 ∧
      staticRowText (fixedWidth 6) (List.replicate 20 'A')
        = List.replicate 14 'A' ++ ['.', '.', '.'] ∧
      fixedWidth 6 (staticRowText (fixedWidth 6) (List.replicate 20 'A')) = 102 ∧
      ¬ fixedWidth 6 (List.replicate 14 'A') + fixedWidth 6 ['.', '.', '.'] ≤ 85 ∧
      fixedWidth 6 (List.replicate 11 'A') + fixedWidth 6 ['.', '.', '.'] = 84 := by
  decide

end Device2
